import Mathlib

set_option autoImplicit false
set_option maxRecDepth 100000
set_option maxHeartbeats 1600000

namespace TdsP1

/-- Python strings are modelled as lists of characters. -/
abbrev Str : Type := List Char

/-- Embed a Lean string literal into the `Str` model. -/
def str (s : String) : Str := s.data

/-- Characters removed by Python's `str.strip()` (whitespace). -/
def pyIsSpace (c : Char) : Bool :=
  decide (c = ' ') || decide (c = '\t') || decide (c = '\n') ||
  decide (c = '\r') || decide (c = '\x0b') || decide (c = '\x0c')

/-- Python `str.lstrip()`. -/
def lstrip (s : Str) : Str := s.dropWhile pyIsSpace

/-- Python `str.rstrip()`. -/
def rstrip (s : Str) : Str := (s.reverse.dropWhile pyIsSpace).reverse

/-- Python `str.strip()`. -/
def pyStrip (s : Str) : Str := rstrip (lstrip s)

/-- Python `text.split("\n")`: split on every newline; always non-empty. -/
def splitNl : Str → List Str
  | [] => [[]]
  | c :: t =>
    if c = '\n' then [] :: splitNl t
    else
      match splitNl t with
      | [] => [[c]]
      | h :: r => (c :: h) :: r

/-- Python `sep.join(xs)`. -/
def joinSep (sep : Str) : List Str → Str
  | [] => []
  | x :: xs =>
    match xs with
    | [] => x
    | _ :: _ => x ++ sep ++ joinSep sep xs

/-- Python `text.split(sep, 1)`: text before the first occurrence of `sep`,
and `some` of the text after it (or `none` when `sep` does not occur). -/
def split1 (sep : Str) : Str → Str × Option Str
  | [] => ([], none)
  | c :: t =>
    if sep.isPrefixOf (c :: t) then ([], some (List.drop sep.length (c :: t)))
    else
      let r := split1 sep t
      (c :: r.1, r.2)

/-- Python `sep in text` (substring containment). -/
def containsSub (sep : Str) : Str → Bool
  | [] => sep.isEmpty
  | c :: t => sep.isPrefixOf (c :: t) || containsSub sep t

/-- The decimal digit character for `n < 10`. -/
def natDigit (n : Nat) : Char := Char.ofNat (48 + n)

/-- Fuel-driven decimal rendering; `fuel ≥ n` always suffices. -/
def natStrGo : Nat → Nat → Str
  | 0, n => [natDigit n]
  | fuel + 1, n =>
    if n < 10 then [natDigit n]
    else natStrGo fuel (n / 10) ++ [natDigit (n % 10)]

/-- Decimal rendering of a natural number, as Python's `str(int)` /
f-string formatting produces for the non-negative integers that occur here. -/
def natStr (n : Nat) : Str := natStrGo n n

/-- Index of the last `'.'` in a name, if any (Python `str.rfind('.')`). -/
def rfindDot (s : Str) : Option Nat :=
  match s.reverse.findIdx? (fun c => decide (c = '.')) with
  | none => none
  | some j => some (s.length - 1 - j)

/-- Python `pathlib.Path(name).suffix` for a single path component:
the extension from the last dot, empty for a leading or trailing dot. -/
def pySuffix (name : Str) : Str :=
  match rfindDot name with
  | none => []
  | some i => if 0 < i ∧ i < name.length - 1 then name.drop i else []

example : pyStrip (str "  a b \n") = str "a b" := by decide
example : splitNl (str "a\nb\n") = [str "a", str "b", str ""] := by decide
example : split1 (str "--") (str "x--y--z") = (str "x", some (str "y--z")) := by decide
example : containsSub (str "--") (str "x-y") = false := by decide
example : natStr 120 = str "120" := by decide
example : pySuffix (str "a.tar.gz") = str ".gz" := by decide
example : pySuffix (str "data") = str "" := by decide

/-- Decoded attachment metadata, from `AttachmentDecoder.decode` in
`src/llm.py`: the `name`, `mime` and `preview` fields of a decoded
attachment dict.  The `path` and `size` fields are omitted: they only feed
disk IO, which the embedding abstracts. -/
structure AttDec where
  name : Str
  mime : Str
  preview : Str
deriving DecidableEq

/-- The literal split marker used by `CodeGenerator._parse_response`. -/
def readmeMarker : Str := str "---README---"

/-- `CodeGenerator._strip_code_block` from `src/llm.py`: strip the string,
drop a leading triple-backtick line, drop a trailing line whose strip is a
triple-backtick, and strip the result. -/
def stripCodeBlock (text : Str) : Str :=
  let t := pyStrip text
  if (str "```").isPrefixOf t then
    let ls := (splitNl t).drop 1
    let ls2 :=
      match ls.getLast? with
      | some lastLine => if pyStrip lastLine = str "```" then ls.dropLast else ls
      | none => ls
    pyStrip (joinSep (str "\n") ls2)
  else pyStrip t

/-- `CodeGenerator._generate_fallback_readme` from `src/llm.py`. -/
def fallbackReadme (brief : Str) (checks : List Str) (attachments : List AttDec)
    (roundNum : Nat) : Str :=
  let attList := joinSep (str "\n") (attachments.map (fun a => str "- " ++ a.name))
  let checksList := joinSep (str "\n") (checks.map (fun c => str "- " ++ c))
  str "# Auto-Generated Application (Round " ++ natStr roundNum ++
  str ")\n\n## Overview\n" ++ brief ++
  str "\n\n## Attachments\n" ++ (if attList.isEmpty then str "None" else attList) ++
  str "\n\n## Evaluation Checks\n" ++ checksList ++
  str "\n\n## Usage\n1. Open `index.html` in a web browser\n2. The application should be fully functional\n\n## Technical Details\n- Single-page application\n- No build process required\n- All dependencies loaded from CDN\n\n## License\nMIT License\n"

/-- The fixed part of `CodeGenerator._fallback_html` before the brief. -/
def fallbackHtmlPre : Str :=
  str "<!DOCTYPE html>\n<html lang=\"en\">\n<head>\n    <meta charset=\"UTF-8\">\n    <meta name=\"viewport\" content=\"width=device-width, initial-scale=1.0\">\n    <title>Fallback App</title>\n    <link href=\"https://cdn.jsdelivr.net/npm/bootstrap@5.3.0/dist/css/bootstrap.min.css\" rel=\"stylesheet\">\n</head>\n<body>\n    <div class=\"container mt-5\">\n        <h1>Application (Fallback Mode)</h1>\n        <div class=\"alert alert-warning\">\n            This is a fallback page generated because the LLM APIs were unavailable.\n        </div>\n        <h2>Brief</h2>\n        <p>"

/-- `CodeGenerator._fallback_html` from `src/llm.py`: the static page used
when both providers fail, followed by the marker and the fallback readme. -/
def fallbackHtml (brief : Str) (checks : List Str) : Str :=
  let checksHtml := joinSep [] (checks.map (fun c => str "<li>" ++ c ++ str "</li>"))
  fallbackHtmlPre ++ brief ++
  str "</p>\n        <h2>Checks to Implement</h2>\n        <ul>" ++ checksHtml ++
  str "</ul>\n    </div>\n</body>\n</html>\n---README---\n" ++
  fallbackReadme brief checks [] 1

/-- The two text artifacts extracted from one generation response
(the Python dict keys `index.html` and `README.md`). -/
structure GenFiles where
  indexHtml : Str
  readme : Str
deriving DecidableEq

/-- `CodeGenerator._parse_response` from `src/llm.py`. -/
def parseResponse (text brief : Str) (checks : List Str) (attachments : List AttDec)
    (roundNum : Nat) : GenFiles :=
  if containsSub readmeMarker text then
    let parts := split1 readmeMarker text
    { indexHtml := stripCodeBlock (pyStrip parts.1),
      readme := stripCodeBlock (pyStrip (parts.2.getD [])) }
  else
    { indexHtml := stripCodeBlock (pyStrip text),
      readme := stripCodeBlock (fallbackReadme brief checks attachments roundNum) }

example :
    parseResponse (str "<html>x</html>\n---README---\n# Title") (str "b") [] [] 1 =
      { indexHtml := str "<html>x</html>", readme := str "# Title" } := by decide

example : stripCodeBlock (str "```html\n<p>hi</p>\n```") = str "<p>hi</p>" := by decide

/-- Python truthiness of an optional string (`None` and `""` are falsy). -/
def truthy : Option Str → Bool
  | none => false
  | some s => !s.isEmpty

/-- The fixed opening of the round-2 context section of
`CodeGenerator._build_prompt`. -/
def ctxBase : Str :=
  str "\n## Previous Version Context\nThe app already exists. Here\x27s what was generated in Round 1:\n"

/-- The previous-README part of the round-2 context section. -/
def ctxReadmeSec (prevReadme : Str) : Str :=
  str "\n### Previous README:\n" ++ prevReadme ++ str "\n"

/-- The previous-HTML part of the round-2 context section, with the
10000-character truncation and its marker. -/
def ctxHtmlSec (prevHtml : Str) : Str :=
  str "\n### Previous HTML Code:\n```html\n" ++
  (prevHtml.take 10000 ++
    (if 10000 < prevHtml.length then str "\n... (truncated for brevity) ..."
     else [])) ++
  str "\n```\n"

/-- The fixed closing of the round-2 context section. -/
def ctxTail : Str :=
  str "\nYour task is to UPDATE the existing app based on the new requirements below.\n- Maintain the existing structure and styling where appropriate\n- Add or modify features as requested in the new brief\n- Keep any functionality that\x27s still relevant\n- Improve upon the previous version\n"

/-- The round-2 context section built by `CodeGenerator._build_prompt`
(the `context` local variable in `src/llm.py`): non-empty only when
`round_num == 2` and a prior artifact is truthy. -/
def buildContext (roundNum : Nat) (prevReadme prevHtml : Option Str) : Str :=
  if roundNum = 2 ∧ (truthy prevReadme || truthy prevHtml) = true then
    ctxBase ++
    (if truthy prevReadme then ctxReadmeSec (prevReadme.getD []) else []) ++
    (if truthy prevHtml then ctxHtmlSec (prevHtml.getD []) else []) ++
    ctxTail
  else []

/-- The fixed text of `CodeGenerator._build_prompt` before the round number. -/
def promptPre : Str :=
  str "Create a complete single-page web application.\n\n## Round "

/-- The fixed text of `CodeGenerator._build_prompt` after the checks list. -/
def promptTail : Str :=
  str "\n\n## Output Requirements\n1. Generate a SINGLE HTML file with inline CSS and JavaScript\n2. The app must be fully functional and meet ALL evaluation checks\n3. Use CDN links for any libraries (Bootstrap, marked, highlight.js, etc.)\n4. After the HTML, add a line \"---README---\" and then provide a complete README.md\n\n## README.md Must Include\n- Project title and overview\n- Features list\n- How to use\n- Technical details (libraries used, structure)\n- License (MIT)\n\nOutput format:\n```html\n<!DOCTYPE html>\n<html>\n...\n</html>\n---README---\n# Project Title\n...\n```\n\nGenerate the code now:"

/-- `CodeGenerator._build_prompt` from `src/llm.py`. -/
def buildPrompt (brief : Str) (checks : List Str) (attachments : List AttDec)
    (roundNum : Nat) (prevReadme prevHtml : Option Str) : Str :=
  let attInfo := joinSep (str "\n")
    (attachments.map (fun a => str "- " ++ a.name ++ str " (" ++ a.mime ++ str "): " ++ a.preview))
  let checksInfo := joinSep (str "\n") (checks.map (fun c => str "- " ++ c))
  let context := buildContext roundNum prevReadme prevHtml
  promptPre ++ natStr roundNum ++
  str "\n\n" ++ context ++
  str "\n\n## Brief\n" ++ brief ++
  str "\n\n## Attachments Available\n" ++ (if attInfo.isEmpty then str "None" else attInfo) ++
  str "\n\n## Evaluation Checks\n" ++ checksInfo ++
  promptTail

/-- The value returned by `CodeGenerator.generate` (dict keys `index.html`,
`README.md`, `attachments`), extended with the prompt it sent to the
providers so that prompt construction is observable. -/
structure GenResult where
  indexHtml : Str
  readme : Str
  attachments : List AttDec
  prompt : Str

/-- `CodeGenerator.generate` from `src/llm.py`.  The two provider calls and
the attachment decoding are external effects: `groq` / `gemini` stand for
the text each provider produced (`none` = the call raised or, for Gemini,
was not attempted), and `savedAttachments` is the output of
`AttachmentDecoder.decode`.  A provider error is caught and yields `None`
in the source, never an exception. -/
def generate (groq : Option Str) (geminiAvailable : Bool) (gemini : Option Str)
    (brief : Str) (checks : List Str) (savedAttachments : List AttDec)
    (roundNum : Nat) (prevReadme prevHtml : Option Str) : GenResult :=
  let prompt := buildPrompt brief checks savedAttachments roundNum prevReadme prevHtml
  let afterGroq := groq
  let afterGemini := if afterGroq.isNone && geminiAvailable then gemini else afterGroq
  let generatedText :=
    match afterGemini with
    | some t => t
    | none => fallbackHtml brief checks
  let files := parseResponse generatedText brief checks savedAttachments roundNum
  { indexHtml := files.indexHtml, readme := files.readme,
    attachments := savedAttachments, prompt := prompt }

/-- One GitHub deployment as inspected by
`GitHubClient.wait_for_pages_deployment`: its commit `sha`, its
`environment`, and the states of its statuses, latest first. -/
structure Deployment where
  sha : Str
  environment : Str
  statuses : List Str

/-- The inner `for deployment in deployments` loop of
`GitHubClient.wait_for_pages_deployment` in `src/github.py`: `some true`
ends polling with success, `some false` with failure, `none` continues. -/
def pollOnce (commitSha : Str) : List Deployment → Option Bool
  | [] => none
  | d :: rest =>
    if d.sha = commitSha ∧ d.environment = str "github-pages" then
      match d.statuses with
      | [] => pollOnce commitSha rest
      | s :: _ =>
        if s = str "success" then some true
        else if s = str "failure" ∨ s = str "error" then some false
        else pollOnce commitSha rest
    else pollOnce commitSha rest

/-- One polling attempt: `getDeployments i = none` models
`repo.get_deployments()` raising (the exception is caught and the attempt
counts as inconclusive). -/
def waitStep (getDeployments : Nat → Option (List Deployment)) (commitSha : Str)
    (i : Nat) : Option Bool :=
  match getDeployments i with
  | none => none
  | some deps => pollOnce commitSha deps

/-- The `for attempt in range(max_attempts)` loop of
`wait_for_pages_deployment`: result, number of attempts made, and the
sleeps performed (one `retry_delay` after every non-final attempt). -/
def waitAux (getDeployments : Nat → Option (List Deployment)) (commitSha : Str)
    (retryDelay : Nat) (i : Nat) : Nat → Bool × Nat × List Nat
  | 0 => (false, 0, [])
  | fuel + 1 =>
    match waitStep getDeployments commitSha i with
    | some b => (b, 1, [])
    | none =>
      match fuel with
      | 0 => (false, 1, [])
      | _ + 1 =>
        let r := waitAux getDeployments commitSha retryDelay (i + 1) fuel
        (r.1, r.2.1 + 1, retryDelay :: r.2.2)

/-- Default `max_attempts` of `wait_for_pages_deployment`. -/
def waitMaxAttempts : Nat := 30

/-- Default `retry_delay` of `wait_for_pages_deployment`. -/
def waitRetryDelay : Nat := 5

/-- `GitHubClient.wait_for_pages_deployment` from `src/github.py`. -/
def waitForPagesDeployment (getDeployments : Nat → Option (List Deployment))
    (commitSha : Str) (maxAttempts retryDelay : Nat) : Bool × Nat × List Nat :=
  waitAux getDeployments commitSha retryDelay 0 maxAttempts

/-- `EvaluationNotifier.MAX_RETRIES` from `src/evaluator.py`. -/
def MAX_RETRIES : Nat := 10

/-- `EvaluationNotifier.INITIAL_DELAY` from `src/evaluator.py`. -/
def INITIAL_DELAY : Nat := 1

/-- The retry loop of `EvaluationNotifier.notify`: `post i` is the HTTP
status of attempt `i` (`none` = the request raised; caught).  Returns the
result and the list of sleeps performed. -/
def notifyAux (post : Nat → Option Nat) (i delay : Nat) : Nat → Bool × List Nat
  | 0 => (false, [])
  | fuel + 1 =>
    let ok :=
      match post i with
      | some code => decide (code = 200)
      | none => false
    if ok then (true, [])
    else
      match fuel with
      | 0 => (false, [])
      | _ + 1 =>
        let r := notifyAux post (i + 1) (delay * 2) fuel
        (r.1, delay :: r.2)

/-- `EvaluationNotifier.notify` from `src/evaluator.py`. -/
def notify (post : Nat → Option Nat) : Bool × List Nat :=
  notifyAux post 0 INITIAL_DELAY MAX_RETRIES

/-- A Python JSON value, as far as the request payloads need. -/
inductive PyVal where
  | s : Str → PyVal
  | i : Int → PyVal
  | l : List PyVal → PyVal
  | d : List (Str × PyVal) → PyVal

/-- A JSON object: association list of keys to values (keys unique in any
actual dict; lookups take the first match). -/
abbrev ReqDict := List (Str × PyVal)

/-- Python `k in data` for a dict. -/
def hasKey (data : ReqDict) (k : Str) : Bool :=
  data.any (fun p => decide (p.1 = k))

/-- Python `data[k]` / `data.get(k)` for a dict. -/
def getVal (data : ReqDict) (k : Str) : Option PyVal :=
  (data.find? (fun p => decide (p.1 = k))).map (fun p => p.2)

/-- `RequestValidator.REQUIRED_FIELDS` from `src/validator.py`. -/
def REQUIRED_FIELDS : List Str :=
  [str "email", str "secret", str "task", str "round", str "nonce",
   str "brief", str "evaluation_url"]

/-- The email check of `RequestValidator.validate`: a string containing `@`. -/
def emailOk (data : ReqDict) : Bool :=
  match getVal data (str "email") with
  | some (.s v) => v.any (fun c => decide (c = '@'))
  | _ => false

/-- Non-empty-string check used for `task`, `nonce` and `brief`. -/
def nonEmptyStrOk (data : ReqDict) (k : Str) : Bool :=
  match getVal data k with
  | some (.s v) => !v.isEmpty
  | _ => false

/-- The round check of `RequestValidator.validate`: an integer `≥ 1`. -/
def roundOk (data : ReqDict) : Bool :=
  match getVal data (str "round") with
  | some (.i n) => decide (1 ≤ n)
  | _ => false

/-- The evaluation_url check: a string starting with `http`. -/
def urlOk (data : ReqDict) : Bool :=
  match getVal data (str "evaluation_url") with
  | some (.s v) => (str "http").isPrefixOf v
  | _ => false

/-- Optional `checks` must be a list when present. -/
def checksOk (data : ReqDict) : Bool :=
  !hasKey data (str "checks") ||
    (match getVal data (str "checks") with
     | some (.l _) => true
     | _ => false)

/-- Optional `attachments` must be a list when present. -/
def attachmentsListOk (data : ReqDict) : Bool :=
  !hasKey data (str "attachments") ||
    (match getVal data (str "attachments") with
     | some (.l _) => true
     | _ => false)

/-- Each attachment entry must be a dict with `name` and `url` keys. -/
def attachmentEntryOk : PyVal → Bool
  | .d e => hasKey e (str "name") && hasKey e (str "url")
  | _ => false

/-- All attachment entries valid (vacuous when `attachments` is absent or
not a list; the list-shape failure is reported by `attachmentsListOk`). -/
def attachmentEntriesOk (data : ReqDict) : Bool :=
  match getVal data (str "attachments") with
  | some (.l items) => items.all attachmentEntryOk
  | _ => true

/-- `RequestValidator.validate` from `src/validator.py`. -/
def validate (data : ReqDict) : Bool × Option Str :=
  let missing := REQUIRED_FIELDS.filter (fun f => !hasKey data f)
  if missing ≠ [] then
    (false, some (str "Missing required fields: " ++ joinSep (str ", ") missing))
  else if !emailOk data then (false, some (str "Invalid email format"))
  else if !nonEmptyStrOk data (str "task") then
    (false, some (str "Task must be a non-empty string"))
  else if !roundOk data then (false, some (str "Round must be a positive integer"))
  else if !nonEmptyStrOk data (str "nonce") then
    (false, some (str "Nonce must be a non-empty string"))
  else if !nonEmptyStrOk data (str "brief") then
    (false, some (str "Brief must be a non-empty string"))
  else if !urlOk data then
    (false, some (str "Evaluation URL must be a valid HTTP(S) URL"))
  else if !checksOk data then (false, some (str "Checks must be a list"))
  else if !attachmentsListOk data then (false, some (str "Attachments must be a list"))
  else if !attachmentEntriesOk data then
    (false, some (str "Each attachment must have \x27name\x27 and \x27url\x27"))
  else (true, none)

/-- The notification payload / Published Result persisted in the dedup
store (`payload` dict in `process_request_background`). -/
structure Payload where
  email : Str
  task : Str
  round : Nat
  nonce : Str
  repo_url : Str
  commit_sha : Str
  pages_url : Str
deriving DecidableEq

/-- The state of the dedup-store file on disk. -/
inductive StoreFile where
  | missing
  | corrupt
  | valid (entries : List (Str × Payload))

/-- `Storage.load` from `src/main.py`: a missing file and a file that fails
to parse both yield the empty map (the parse error is only logged). -/
def Storage.load : StoreFile → List (Str × Payload)
  | .missing => []
  | .corrupt => []
  | .valid m => m

/-- `Storage.get_key` from `src/main.py`:
`f"{email}::{task}::round{round}::{nonce}"`. -/
def getKey (email task : Str) (roundNum : Nat) (nonce : Str) : Str :=
  email ++ str "::" ++ task ++ str "::round" ++ natStr roundNum ++ str "::" ++ nonce

/-- Extract a string field from a validated request dict. -/
def getStr (data : ReqDict) (k : Str) : Str :=
  match getVal data k with
  | some (.s v) => v
  | _ => []

/-- Extract the integer `round` field from a validated request dict
(validation guarantees it is an int `≥ 1`). -/
def getNat (data : ReqDict) (k : Str) : Nat :=
  match getVal data k with
  | some (.i n) => n.toNat
  | _ => 0

/-- The checks list of a request; entries are strings in every validated
request this system receives. -/
def getStrList (data : ReqDict) (k : Str) : List Str :=
  match getVal data k with
  | some (.l items) =>
    items.map (fun v => match v with | .s w => w | _ => [])
  | _ => []

/-- `Storage.get_key(data)` applied to a request dict. -/
def dictKey (data : ReqDict) : Str :=
  getKey (getStr data (str "email")) (getStr data (str "task"))
    (getNat data (str "round")) (getStr data (str "nonce"))

/-- The HTTP response produced by the `/api-endpoint` handler. -/
inductive Response where
  | badRequest (detail : Str)
  | forbidden (detail : Str)
  | duplicate (message : Str) (previous : Payload)
  | accepted (message : Str)

/-- Everything observable from one call of `receive_request`: the response,
the synchronous notifier invocations, and the background tasks scheduled. -/
structure IntakeResult where
  response : Response
  notified : List (Str × Payload)
  scheduled : List ReqDict

/-- `receive_request` from `src/main.py` (the `POST /api-endpoint`
handler), given the configured secret and the dedup-store file state. -/
def receiveRequest (secret : Str) (storeFile : StoreFile) (data : ReqDict) :
    IntakeResult :=
  match validate data with
  | (false, msg) => ⟨.badRequest (msg.getD []), [], []⟩
  | (true, _) =>
    let secretOk :=
      match getVal data (str "secret") with
      | some (.s v) => decide (v = secret)
      | _ => false
    if !secretOk then ⟨.forbidden (str "Invalid secret"), [], []⟩
    else
      let storage := Storage.load storeFile
      let key := dictKey data
      match storage.find? (fun p => decide (p.1 = key)) with
      | some prev =>
        ⟨.duplicate (str "Request already processed, re-notification sent") prev.2,
         [(getStr data (str "evaluation_url"), prev.2)], []⟩
      | none =>
        ⟨.accepted (str "Processing round " ++ natStr (getNat data (str "round")) ++
            str " for task " ++ getStr data (str "task")), [], [data]⟩

/-- The external world as seen by one run of `process_request_background`:
the outcome of every collaborator call it makes.  `Ok` flags model whether
the corresponding call raises; calls whose Python wrappers catch all
exceptions internally (prev-content fetches, `enable_pages`,
`get_latest_commit_sha`, `wait_for_pages_deployment`, `notify`) are
modelled by their return values. -/
structure PipeEnv where
  repoOk : Bool
  repoUrl : Str
  username : Str
  prevReadme : Option Str
  prevHtml : Option Str
  groq : Option Str
  geminiAvailable : Bool
  gemini : Option Str
  decodedAtts : List AttDec
  licenseOk : Bool
  readmeOk : Bool
  pagesEnabled : Bool
  indexOk : Bool
  latestSha : Option Str
  deployConfirmed : Bool
  notifyDelivered : Bool
  saveOk : Bool
  storeFile : StoreFile

/-- One observable external action of the background unit. -/
inductive Action where
  | getOrCreateRepo (name : Str)
  | fetchReadme
  | fetchHtml
  | generateCode (prompt : Str)
  | commitFile (path : Str)
  | commitBinaryFile (path : Str)
  | enablePages (name : Str)
  | getLatestSha
  | waitDeploy (sha : Str)
  | notifyCall (url : Str) (payload : Payload)
  | saveStore (entries : List (Str × Payload))
deriving DecidableEq

/-- Whether an attachment is committed as text, per `process_request_background`:
`att["mime"].startswith("text") or att_path.suffix in [".csv",".json",".txt",".md"]`. -/
def attIsText (a : AttDec) : Bool :=
  (str "text").isPrefixOf a.mime ||
    decide (pySuffix a.name ∈ [str ".csv", str ".json", str ".txt", str ".md"])

/-- The commit attempted for one decoded attachment (its own failure is
caught and logged, never aborting the pipeline). -/
def attCommitAction (a : AttDec) : Action :=
  if attIsText a then Action.commitFile a.name else Action.commitBinaryFile a.name

/-- Python dict assignment `storage[key] = payload` on the loaded store. -/
def storeSet (m : List (Str × Payload)) (k : Str) (v : Payload) :
    List (Str × Payload) :=
  if m.any (fun p => decide (p.1 = k)) then
    m.map (fun p => if p.1 = k then (k, v) else p)
  else m ++ [(k, v)]

/-- The outcome of one background run: the action trace (attempts, in
order), the resulting dedup-store file, and whether the unit ran to
completion (`false` = an exception escaped a step and was caught by the
top-level `except` of `process_request_background`). -/
structure PipeResult where
  trace : List Action
  finalStore : StoreFile
  completed : Bool

/-- `process_request_background` from `src/main.py`.  A failed
`Storage.save` leaves the store file unchanged (partial writes are not
modelled).  `latestSha = none` makes the unit fail: the source formats
`commit_sha[:8]` right after, which raises `TypeError` on `None`. -/
def processRequestBackground (env : PipeEnv) (data : ReqDict) : PipeResult :=
  let taskId := getStr data (str "task")
  let roundNum := getNat data (str "round")
  let t0 := [Action.getOrCreateRepo taskId]
  if env.repoOk = false then ⟨t0, env.storeFile, false⟩ else
  let fetches := if 2 ≤ roundNum then [Action.fetchReadme, Action.fetchHtml] else []
  let prevReadme := if 2 ≤ roundNum then env.prevReadme else none
  let prevHtml := if 2 ≤ roundNum then env.prevHtml else none
  let gen := generate env.groq env.geminiAvailable env.gemini
    (getStr data (str "brief")) (getStrList data (str "checks"))
    env.decodedAtts roundNum prevReadme prevHtml
  let t1 := t0 ++ fetches ++ [Action.generateCode gen.prompt]
  let t2 := t1 ++ (if roundNum = 1 then [Action.commitFile (str "LICENSE")] else [])
  if roundNum = 1 ∧ env.licenseOk = false then ⟨t2, env.storeFile, false⟩ else
  let attActs :=
    if roundNum = 1 ∧ gen.attachments ≠ [] then gen.attachments.map attCommitAction
    else []
  let t3 := t2 ++ attActs ++ [Action.commitFile (str "README.md")]
  if env.readmeOk = false then ⟨t3, env.storeFile, false⟩ else
  let t4 := t3 ++ (if roundNum = 1 then [Action.enablePages taskId] else [])
  let t5 := t4 ++ [Action.commitFile (str "index.html")]
  if env.indexOk = false then ⟨t5, env.storeFile, false⟩ else
  let t6 := t5 ++ [Action.getLatestSha]
  match env.latestSha with
  | none => ⟨t6, env.storeFile, false⟩
  | some sha =>
    let t7 := t6 ++ [Action.waitDeploy sha]
    let pagesUrl := str "https://" ++ env.username ++ str ".github.io/" ++ taskId ++ str "/"
    let payload : Payload :=
      { email := getStr data (str "email"), task := taskId, round := roundNum,
        nonce := getStr data (str "nonce"), repo_url := env.repoUrl,
        commit_sha := sha, pages_url := pagesUrl }
    let t8 := t7 ++ [Action.notifyCall (getStr data (str "evaluation_url")) payload]
    let newStore := storeSet (Storage.load env.storeFile) (dictKey data) payload
    let t9 := t8 ++ [Action.saveStore newStore]
    if env.saveOk = false then ⟨t9, env.storeFile, false⟩
    else ⟨t9, .valid newStore, true⟩

/-- The exponential backoff sleep sequence: `n` sleeps starting at `delay`,
doubling each time. -/
def backoffDelays (delay : Nat) : Nat → List Nat
  | 0 => []
  | n + 1 => delay :: backoffDelays (delay * 2) n

/-- Decimal value of a digit string (used to invert `natStr`). -/
def digitsVal (s : Str) : Nat :=
  s.foldl (fun a c => a * 10 + (c.toNat - 48)) 0

/-- The notification payload assembled by `process_request_background`
for a given latest commit sha. -/
def pipePayload (env : PipeEnv) (data : ReqDict) (sha : Str) : Payload :=
  { email := getStr data (str "email"), task := getStr data (str "task"),
    round := getNat data (str "round"), nonce := getStr data (str "nonce"),
    repo_url := env.repoUrl, commit_sha := sha,
    pages_url := str "https://" ++ env.username ++ str ".github.io/" ++
      getStr data (str "task") ++ str "/" }

/-- The prompt built inside the pipeline's `generate` call (previous
content is only passed for round ≥ 2, as in `process_request_background`). -/
def pipePrompt (env : PipeEnv) (data : ReqDict) : Str :=
  buildPrompt (getStr data (str "brief")) (getStrList data (str "checks"))
    env.decodedAtts (getNat data (str "round"))
    (if 2 ≤ getNat data (str "round") then env.prevReadme else none)
    (if 2 ≤ getNat data (str "round") then env.prevHtml else none)

/-- A well-formed round-1 request used to instantiate theorems. -/
def testData : ReqDict :=
  [(str "email", .s (str "a@b.com")), (str "secret", .s (str "s")),
   (str "task", .s (str "t1")), (str "round", .i 1),
   (str "nonce", .s (str "n1")), (str "brief", .s (str "build a page")),
   (str "evaluation_url", .s (str "http://e.com/cb"))]

/-- A second well-formed request with a different nonce. -/
def testData2 : ReqDict :=
  [(str "email", .s (str "a@b.com")), (str "secret", .s (str "s")),
   (str "task", .s (str "t1")), (str "round", .i 1),
   (str "nonce", .s (str "n2")), (str "brief", .s (str "build a page")),
   (str "evaluation_url", .s (str "http://e.com/cb"))]

/-- A well-formed round-2 request. -/
def testDataR2 : ReqDict :=
  [(str "email", .s (str "a@b.com")), (str "secret", .s (str "s")),
   (str "task", .s (str "t1")), (str "round", .i 2),
   (str "nonce", .s (str "n3")), (str "brief", .s (str "revise the page")),
   (str "evaluation_url", .s (str "http://e.com/cb"))]

/-- A sample stored Published Result. -/
def testPayload : Payload :=
  { email := str "a@b.com", task := str "t1", round := 1, nonce := str "n1",
    repo_url := str "https://github.com/me/t1",
    commit_sha := str "abc123", pages_url := str "https://me.github.io/t1/" }

/-- An environment in which every collaborator call succeeds, with a
chosen store-file state and save outcome. -/
def testEnv (sf : StoreFile) (save : Bool) : PipeEnv :=
  { repoOk := true, repoUrl := str "https://github.com/me/t1",
    username := str "me", prevReadme := none, prevHtml := none,
    groq := some (str "<h1>hi</h1>\n---README---\n# T"),
    geminiAvailable := false, gemini := none, decodedAtts := [],
    licenseOk := true, readmeOk := true, pagesEnabled := true,
    indexOk := true, latestSha := some (str "abc123"),
    deployConfirmed := true, notifyDelivered := true, saveOk := save,
    storeFile := sf }

theorem natDigit_toNat (n : Nat) (h : n < 10) : (natDigit n).toNat = 48 + n := by
  interval_cases n <;> decide

theorem natStrGo_digits : ∀ fuel n : Nat, n ≤ fuel →
    ∀ c ∈ natStrGo fuel n, 48 ≤ c.toNat ∧ c.toNat ≤ 57 := by
  intro fuel
  induction fuel with
  | zero =>
    intro n hn c hc
    have : n = 0 := by omega
    subst this
    simp only [natStrGo, List.mem_singleton] at hc
    subst hc
    decide
  | succ f ih =>
    intro n hn c hc
    simp only [natStrGo] at hc
    by_cases h10 : n < 10
    · rw [if_pos h10] at hc
      simp only [List.mem_singleton] at hc
      subst hc
      rw [natDigit_toNat n h10]
      omega
    · rw [if_neg h10] at hc
      rcases List.mem_append.mp hc with h | h
      · exact ih (n / 10) (by omega) c h
      · simp only [List.mem_singleton] at h
        subst h
        rw [natDigit_toNat (n % 10) (Nat.mod_lt n (by omega))]
        omega

theorem natStr_no_colon (n : Nat) : ∀ c ∈ natStr n, c ≠ ':' := by
  intro c hc he
  have := natStrGo_digits n n (Nat.le_refl n) c hc
  subst he
  have h58 : (':').toNat = 58 := by decide
  omega

theorem digitsVal_natStrGo : ∀ fuel n : Nat, n ≤ fuel →
    digitsVal (natStrGo fuel n) = n := by
  intro fuel
  induction fuel with
  | zero =>
    intro n hn
    have : n = 0 := by omega
    subst this
    decide
  | succ f ih =>
    intro n hn
    simp only [natStrGo]
    by_cases h10 : n < 10
    · rw [if_pos h10]
      simp only [digitsVal, List.foldl_cons, List.foldl_nil]
      rw [natDigit_toNat n h10]
      omega
    · rw [if_neg h10]
      simp only [digitsVal, List.foldl_append, List.foldl_cons, List.foldl_nil]
      have hrec := ih (n / 10) (by omega)
      simp only [digitsVal] at hrec
      rw [hrec, natDigit_toNat (n % 10) (Nat.mod_lt n (by omega))]
      omega

theorem natStr_inj {a b : Nat} (h : natStr a = natStr b) : a = b := by
  have ha := digitsVal_natStrGo a a (Nat.le_refl a)
  have hb := digitsVal_natStrGo b b (Nat.le_refl b)
  rw [show natStrGo a a = natStr a from rfl] at ha
  rw [show natStrGo b b = natStr b from rfl] at hb
  rw [← ha, ← hb, h]

theorem append_colon_inj : ∀ {a1 : Str} {a2 l1 l2 : Str},
    (∀ c ∈ a1, c ≠ ':') → (∀ c ∈ a2, c ≠ ':') →
    a1 ++ ':' :: l1 = a2 ++ ':' :: l2 → a1 = a2 ∧ l1 = l2 := by
  intro a1
  induction a1 with
  | nil =>
    intro a2 l1 l2 _ h2 he
    cases a2 with
    | nil => simpa using he
    | cons b bs =>
      simp only [List.nil_append, List.cons_append, List.cons.injEq] at he
      exact absurd he.1.symm (h2 b (by simp))
  | cons a as ih =>
    intro a2 l1 l2 h1 h2 he
    cases a2 with
    | nil =>
      simp only [List.cons_append, List.nil_append, List.cons.injEq] at he
      exact absurd he.1 (h1 a (by simp))
    | cons b bs =>
      simp only [List.cons_append, List.cons.injEq] at he
      obtain ⟨has, hl⟩ := ih (fun c hc => h1 c (by simp [hc]))
        (fun c hc => h2 c (by simp [hc])) he.2
      exact ⟨by rw [he.1, has], hl⟩

theorem backoffDelays_mul (n : Nat) : ∀ delay : Nat,
    backoffDelays delay n = (List.range n).map (fun j => delay * 2 ^ j) := by
  induction n with
  | zero => intro delay; simp [backoffDelays]
  | succ m ih =>
    intro delay
    rw [List.range_succ_eq_map]
    simp only [backoffDelays, List.map_cons, List.map_map]
    congr 1
    · simp
    · rw [ih (delay * 2)]
      apply List.map_congr_left
      intro j _
      simp only [Function.comp_apply]
      rw [Nat.pow_succ]
      ring

theorem backoffDelays_one (n : Nat) :
    backoffDelays 1 n = (List.range n).map (fun j => 2 ^ j) := by
  rw [backoffDelays_mul]
  simp

theorem notifyAux_not200 (post : Nat → Option Nat) (i : Nat)
    (h0 : post i ≠ some 200) :
    (match post i with
     | some code => decide (code = 200)
     | none => false) = false := by
  match hp : post i with
  | some code =>
    have hc : ¬ code = 200 := fun h => h0 (by rw [hp, h])
    simp [hc]
  | none => rfl

theorem notifyAux_unfold (post : Nat → Option Nat) (i delay fuel : Nat) :
    notifyAux post i delay (fuel + 1) =
      if (match post i with
          | some code => decide (code = 200)
          | none => false) = true then (true, [])
      else
        match fuel with
        | 0 => (false, [])
        | _ + 1 =>
          ((notifyAux post (i + 1) (delay * 2) fuel).1,
            delay :: (notifyAux post (i + 1) (delay * 2) fuel).2) := by
  rfl

theorem notifyAux_success (post : Nat → Option Nat) : ∀ k i delay fuel : Nat,
    k < fuel → (∀ j, j < k → post (i + j) ≠ some 200) → post (i + k) = some 200 →
    notifyAux post i delay fuel = (true, backoffDelays delay k) := by
  intro k
  induction k with
  | zero =>
    intro i delay fuel hk _ hs
    obtain ⟨f, rfl⟩ : ∃ f, fuel = f + 1 := ⟨fuel - 1, by omega⟩
    rw [notifyAux_unfold]
    rw [show i + 0 = i from rfl] at hs
    rw [hs]
    simp [backoffDelays]
  | succ k ih =>
    intro i delay fuel hk hfail hs
    obtain ⟨f, rfl⟩ : ∃ f, fuel = (f + 1) + 1 := ⟨fuel - 2, by omega⟩
    have h0 : post i ≠ some 200 := by simpa using hfail 0 (by omega)
    have hrec : notifyAux post (i + 1) (delay * 2) (f + 1) =
        (true, backoffDelays (delay * 2) k) :=
      ih (i + 1) (delay * 2) (f + 1) (by omega)
        (fun j hj => by
          rw [show i + 1 + j = i + (j + 1) by omega]
          exact hfail (j + 1) (by omega))
        (by rw [show i + 1 + k = i + (k + 1) by omega]; exact hs)
    rw [notifyAux_unfold]
    rw [notifyAux_not200 post i h0, hrec]
    simp [backoffDelays]

theorem notifyAux_exhaust (post : Nat → Option Nat) : ∀ fuel i delay : Nat,
    1 ≤ fuel → (∀ j, j < fuel → post (i + j) ≠ some 200) →
    notifyAux post i delay fuel = (false, backoffDelays delay (fuel - 1)) := by
  intro fuel
  induction fuel with
  | zero => intro i delay h; omega
  | succ f ih =>
    intro i delay _ hfail
    have h0 : post i ≠ some 200 := by simpa using hfail 0 (by omega)
    rw [notifyAux_unfold]
    rw [notifyAux_not200 post i h0]
    match f, ih with
    | 0, _ => simp [backoffDelays]
    | f' + 1, ih =>
      have hrec := ih (i + 1) (delay * 2) (by omega)
        (fun j hj => by
          rw [show i + 1 + j = i + (j + 1) by omega]
          exact hfail (j + 1) (by omega))
      rw [hrec]
      simp [backoffDelays]

theorem waitAux_unfold (g : Nat → Option (List Deployment)) (sha : Str)
    (d i fuel : Nat) :
    waitAux g sha d i (fuel + 1) =
      match waitStep g sha i with
      | some b => (b, 1, [])
      | none =>
        match fuel with
        | 0 => (false, 1, [])
        | _ + 1 =>
          ((waitAux g sha d (i + 1) fuel).1,
            (waitAux g sha d (i + 1) fuel).2.1 + 1,
            d :: (waitAux g sha d (i + 1) fuel).2.2) := by
  rfl

theorem waitAux_le (g : Nat → Option (List Deployment)) (sha : Str) (d : Nat) :
    ∀ fuel i : Nat, (waitAux g sha d i fuel).2.1 ≤ fuel := by
  intro fuel
  induction fuel with
  | zero => intro i; simp [waitAux]
  | succ f ih =>
    intro i
    rw [waitAux_unfold]
    cases hw : waitStep g sha i with
    | some b => simp
    | none =>
      match f, ih with
      | 0, _ => simp
      | f' + 1, ih =>
        have := ih (i + 1)
        simp only []
        omega

theorem waitAux_success (g : Nat → Option (List Deployment)) (sha : Str)
    (d : Nat) (b : Bool) : ∀ k i fuel : Nat,
    k < fuel → (∀ j, j < k → waitStep g sha (i + j) = none) →
    waitStep g sha (i + k) = some b →
    waitAux g sha d i fuel = (b, k + 1, List.replicate k d) := by
  intro k
  induction k with
  | zero =>
    intro i fuel hk _ hs
    obtain ⟨f, rfl⟩ : ∃ f, fuel = f + 1 := ⟨fuel - 1, by omega⟩
    rw [waitAux_unfold]
    rw [show i + 0 = i from rfl] at hs
    rw [hs]
    rfl
  | succ k ih =>
    intro i fuel hk hcont hs
    obtain ⟨f, rfl⟩ : ∃ f, fuel = (f + 1) + 1 := ⟨fuel - 2, by omega⟩
    have h0 : waitStep g sha i = none := by simpa using hcont 0 (by omega)
    have hrec : waitAux g sha d (i + 1) (f + 1) = (b, k + 1, List.replicate k d) :=
      ih (i + 1) (f + 1) (by omega)
        (fun j hj => by
          rw [show i + 1 + j = i + (j + 1) by omega]
          exact hcont (j + 1) (by omega))
        (by rw [show i + 1 + k = i + (k + 1) by omega]; exact hs)
    rw [waitAux_unfold, h0, hrec]
    simp [List.replicate_succ]

theorem waitAux_exhaust (g : Nat → Option (List Deployment)) (sha : Str)
    (d : Nat) : ∀ fuel i : Nat,
    1 ≤ fuel → (∀ j, j < fuel → waitStep g sha (i + j) = none) →
    waitAux g sha d i fuel = (false, fuel, List.replicate (fuel - 1) d) := by
  intro fuel
  induction fuel with
  | zero => intro i h; omega
  | succ f ih =>
    intro i _ hcont
    have h0 : waitStep g sha i = none := by simpa using hcont 0 (by omega)
    rw [waitAux_unfold, h0]
    match f, ih with
    | 0, _ => simp
    | f' + 1, ih =>
      have hrec := ih (i + 1) (by omega)
        (fun j hj => by
          rw [show i + 1 + j = i + (j + 1) by omega]
          exact hcont (j + 1) (by omega))
      rw [hrec]
      simp [List.replicate_succ]

/-- C4: `wait_for_pages_deployment` polls at most `max_attempts` times
(default 30) with a fixed `retry_delay` (default 5) slept between
attempts; a poll whose matching deployment has latest status `success`
returns `true` on that exact poll, a `failure`/`error` status returns
`false` immediately, any other status, a missing deployment, or an API
exception continues polling, and exhausting the budget returns `false`
without raising. -/
theorem c4_deployment_polling (g : Nat → Option (List Deployment)) (sha : Str)
    (maxAttempts retryDelay : Nat) :
    waitMaxAttempts = 30 ∧ waitRetryDelay = 5 ∧
    (waitForPagesDeployment g sha maxAttempts retryDelay).2.1 ≤ maxAttempts ∧
    (∀ k b, k < maxAttempts → (∀ j, j < k → waitStep g sha j = none) →
      waitStep g sha k = some b →
      waitForPagesDeployment g sha maxAttempts retryDelay =
        (b, k + 1, List.replicate k retryDelay)) ∧
    (1 ≤ maxAttempts → (∀ j, j < maxAttempts → waitStep g sha j = none) →
      waitForPagesDeployment g sha maxAttempts retryDelay =
        (false, maxAttempts, List.replicate (maxAttempts - 1) retryDelay)) := by
  refine ⟨rfl, rfl, waitAux_le g sha retryDelay maxAttempts 0, ?_, ?_⟩
  · intro k b hk hcont hs
    exact waitAux_success g sha retryDelay b k 0 maxAttempts hk
      (fun j hj => by simpa using hcont j hj) (by simpa using hs)
  · intro hm hcont
    exact waitAux_exhaust g sha retryDelay maxAttempts 0 hm
      (fun j hj => by simpa using hcont j hj)

theorem c4_deployment_polling_witness :
    waitForPagesDeployment
      (fun i => some [⟨ str "abc", str "github-pages",
        [if i < 3 then str "in_progress" else str "success"]⟩])
      (str "abc") 30 5 = (true, 4, [5, 5, 5]) ∧
    waitForPagesDeployment
      (fun _ => some [⟨ str "abc", str "github-pages", [str "failure"]⟩])
      (str "abc") 30 5 = (false, 1, []) := by
  constructor
  · have h := (c4_deployment_polling
      (fun i => some [⟨ str "abc", str "github-pages",
        [if i < 3 then str "in_progress" else str "success"]⟩])
      (str "abc") 30 5).2.2.2.1 3 true (by omega) (by decide) (by decide)
    rw [h]
    rfl
  · have h := (c4_deployment_polling
      (fun _ => some [⟨ str "abc", str "github-pages", [str "failure"]⟩])
      (str "abc") 30 5).2.2.2.1 0 false (by omega) (by omega) (by decide)
    rw [h]
    rfl

/-- C5: `EvaluationNotifier.notify` attempts delivery at most
`MAX_RETRIES = 10` times, sleeping 1, 2, 4, … (doubling, with no sleep
after the final attempt) between attempts; status 200 ends the loop with
`true`; an exception or any other status counts as a failed attempt
without being re-raised; exhausting all attempts returns `false`; and the
pipeline ignores the notifier's boolean, so its failure undoes no prior
publish step. -/
theorem c5_notifier_backoff (post : Nat → Option Nat) :
    MAX_RETRIES = 10 ∧ INITIAL_DELAY = 1 ∧
    (∀ k, k < MAX_RETRIES → (∀ j, j < k → post j ≠ some 200) →
      post k = some 200 →
      notify post = (true, (List.range k).map (fun j => 2 ^ j))) ∧
    ((∀ j, j < MAX_RETRIES → post j ≠ some 200) →
      notify post = (false, (List.range (MAX_RETRIES - 1)).map (fun j => 2 ^ j))) ∧
    (∀ (env : PipeEnv) (b : Bool) (data : ReqDict),
      processRequestBackground { env with notifyDelivered := b } data =
        processRequestBackground env data) := by
  refine ⟨rfl, rfl, ?_, ?_, ?_⟩
  · intro k hk hfail hs
    have h := notifyAux_success post k 0 1 10 hk
      (fun j hj => by simpa using hfail j hj) (by simpa using hs)
    rw [notify, show INITIAL_DELAY = 1 from rfl, show MAX_RETRIES = 10 from rfl, h,
      backoffDelays_one]
  · intro hfail
    have h := notifyAux_exhaust post 10 0 1 (by omega)
      (fun j hj => by simpa using hfail j hj)
    rw [notify, show INITIAL_DELAY = 1 from rfl, show MAX_RETRIES = 10 from rfl, h,
      backoffDelays_one]
  · intro env b data
    rfl

theorem getKey_eq (e t : Str) (r : Nat) (n : Str) :
    getKey e t r n = e ++ ':' :: ':' :: (t ++ ':' :: ':' ::
      ('r' :: 'o' :: 'u' :: 'n' :: 'd' :: (natStr r ++ ':' :: ':' :: n))) := by
  simp only [getKey, show str "::" = [':', ':'] from rfl,
    show str "::round" = [':', ':', 'r', 'o', 'u', 'n', 'd'] from rfl,
    List.append_assoc, List.cons_append, List.nil_append]

/-- C8 (amended): equal `(email, task, round, nonce)` quadruples always
produce equal `Storage.get_key` strings, and the key determines the
quadruple whenever email, task and nonce contain no `':'` character; for
fields containing `::` distinct quadruples can collide (see the
counterexample), so the unconditional iff of the claim fails. -/
theorem c8_dedup_key (e1 t1 nn1 e2 t2 nn2 : Str) (r1 r2 : Nat) :
    ((e1 = e2 ∧ t1 = t2 ∧ r1 = r2 ∧ nn1 = nn2) →
      getKey e1 t1 r1 nn1 = getKey e2 t2 r2 nn2) ∧
    ((∀ c ∈ e1, c ≠ ':') → (∀ c ∈ t1, c ≠ ':') → (∀ c ∈ nn1, c ≠ ':') →
     (∀ c ∈ e2, c ≠ ':') → (∀ c ∈ t2, c ≠ ':') → (∀ c ∈ nn2, c ≠ ':') →
      (getKey e1 t1 r1 nn1 = getKey e2 t2 r2 nn2 ↔
        (e1 = e2 ∧ t1 = t2 ∧ r1 = r2 ∧ nn1 = nn2))) := by
  constructor
  · rintro ⟨rfl, rfl, rfl, rfl⟩
    rfl
  · intro he1 ht1 hn1 he2 ht2 hn2
    constructor
    · intro h
      rw [getKey_eq, getKey_eq] at h
      obtain ⟨hee, h⟩ := append_colon_inj he1 he2 h
      simp only [List.cons.injEq, true_and] at h
      obtain ⟨htt, h⟩ := append_colon_inj ht1 ht2 h
      simp only [List.cons.injEq, true_and] at h
      obtain ⟨hrr, h⟩ :=
        append_colon_inj (natStr_no_colon r1) (natStr_no_colon r2) h
      simp only [List.cons.injEq, true_and] at h
      exact ⟨hee, htt, natStr_inj hrr, h⟩
    · rintro ⟨rfl, rfl, rfl, rfl⟩
      rfl

theorem c8_dedup_key_counterexample :
    getKey (str "a::b") (str "c") 1 (str "n") =
      getKey (str "a") (str "b::c") 1 (str "n") ∧
    ¬ (str "a::b" = str "a" ∧ str "c" = str "b::c" ∧ (1 : Nat) = 1 ∧
        str "n" = str "n") := by
  decide

theorem c8_dedup_key_witness :
    getKey (str "a") (str "t") 2 (str "n") ≠ getKey (str "a") (str "t") 3 (str "n") := by
  have h := (c8_dedup_key (str "a") (str "t") (str "n") (str "a") (str "t") (str "n")
    2 3).2 (by decide) (by decide) (by decide) (by decide) (by decide) (by decide)
  intro he
  exact absurd (h.mp he).2.2.1 (by omega)

/-- C9: `RequestValidator.validate` rejects any input missing required
keys with an error naming exactly the missing keys (in the fixed field
order); when every required key is present, the type/content checks run in
the specified order, short-circuiting on the first failure; `validate` is
a pure function of its input. -/
theorem c9_validation (data : ReqDict) :
    (REQUIRED_FIELDS.filter (fun f => !hasKey data f) ≠ [] →
      validate data = (false, some (str "Missing required fields: " ++
        joinSep (str ", ") (REQUIRED_FIELDS.filter (fun f => !hasKey data f)))) ∧
      (∀ f, f ∈ REQUIRED_FIELDS.filter (fun g => !hasKey data g) ↔
        (f ∈ REQUIRED_FIELDS ∧ hasKey data f = false))) ∧
    ((∀ f, f ∈ REQUIRED_FIELDS → hasKey data f = true) →
      validate data =
        (if !emailOk data then (false, some (str "Invalid email format"))
         else if !nonEmptyStrOk data (str "task") then
           (false, some (str "Task must be a non-empty string"))
         else if !roundOk data then
           (false, some (str "Round must be a positive integer"))
         else if !nonEmptyStrOk data (str "nonce") then
           (false, some (str "Nonce must be a non-empty string"))
         else if !nonEmptyStrOk data (str "brief") then
           (false, some (str "Brief must be a non-empty string"))
         else if !urlOk data then
           (false, some (str "Evaluation URL must be a valid HTTP(S) URL"))
         else if !checksOk data then (false, some (str "Checks must be a list"))
         else if !attachmentsListOk data then
           (false, some (str "Attachments must be a list"))
         else if !attachmentEntriesOk data then
           (false, some (str "Each attachment must have \x27name\x27 and \x27url\x27"))
         else (true, none))) := by
  constructor
  · intro hne
    constructor
    · simp only [validate]
      rw [if_pos hne]
    · intro f
      rw [List.mem_filter]
      simp
  · intro hall
    have hmiss : REQUIRED_FIELDS.filter (fun f => !hasKey data f) = [] := by
      rw [List.filter_eq_nil_iff]
      intro f hf
      simp [hall f hf]
    simp only [validate, hmiss]
    rw [if_neg (by simp)]

theorem c9_validation_witness :
    validate [(str "email", .s (str "a@b.com")), (str "task", .s (str "t1")),
      (str "nonce", .s (str "n1")), (str "brief", .s (str "do it")),
      (str "evaluation_url", .s (str "http://e.com"))] =
      (false, some (str "Missing required fields: secret, round")) ∧
    validate [(str "email", .s (str "a@b.com")), (str "secret", .s (str "s")),
      (str "task", .s (str "t1")), (str "round", .i 1),
      (str "nonce", .s (str "n1")), (str "brief", .s (str "do it")),
      (str "evaluation_url", .s (str "http://e.com"))] = (true, none) := by
  constructor
  · rw [((c9_validation [(str "email", .s (str "a@b.com")), (str "task", .s (str "t1")),
      (str "nonce", .s (str "n1")), (str "brief", .s (str "do it")),
      (str "evaluation_url", .s (str "http://e.com"))]).1 (by decide)).1]
    rfl
  · rw [(c9_validation [(str "email", .s (str "a@b.com")), (str "secret", .s (str "s")),
      (str "task", .s (str "t1")), (str "round", .i 1),
      (str "nonce", .s (str "n1")), (str "brief", .s (str "do it")),
      (str "evaluation_url", .s (str "http://e.com"))]).2 (by decide)]
    rfl

theorem c5_notifier_backoff_witness :
    notify (fun i => if i < 3 then none else some 200) = (true, [1, 2, 4]) ∧
    notify (fun _ => some 500) = (false, [1, 2, 4, 8, 16, 32, 64, 128, 256]) := by
  constructor
  · have h := (c5_notifier_backoff (fun i => if i < 3 then none else some 200)).2.2.1
      3 (by decide) (by decide) (by decide)
    rw [h]
    rfl
  · have h := (c5_notifier_backoff (fun _ => some 500)).2.2.2.1 (by decide)
    rw [h]
    rfl

theorem attCommitAction_ne_notifyCall (a : AttDec) (u : Str) (p : Payload) :
    attCommitAction a ≠ Action.notifyCall u p := by
  unfold attCommitAction
  split <;> simp

theorem storeSet_cons_ne (a : Str × Payload) (m : List (Str × Payload))
    (k : Str) (v : Payload) (hk : a.1 ≠ k) :
    storeSet (a :: m) k v = a :: storeSet m k v := by
  simp only [storeSet, List.any_cons, List.map_cons]
  rw [decide_eq_false hk]
  rw [if_neg hk]
  cases m.any (fun p => decide (p.1 = k)) <;> simp

theorem storeSet_find (m : List (Str × Payload)) (k : Str) (v : Payload) :
    (storeSet m k v).find? (fun q => decide (q.1 = k)) = some (k, v) := by
  induction m with
  | nil => simp [storeSet, List.find?]
  | cons a m ih =>
    by_cases hk : a.1 = k
    · simp [storeSet, hk, List.find?]
    · rw [storeSet_cons_ne a m k v hk]
      simp only [List.find?]
      rw [decide_eq_false hk]
      exact ih

theorem processRequestBackground_completed (env : PipeEnv) (data : ReqDict)
    (hdone : (processRequestBackground env data).completed = true) :
    env.repoOk = true ∧ ¬(getNat data (str "round") = 1 ∧ env.licenseOk = false) ∧
    env.readmeOk = true ∧ env.indexOk = true ∧
    (∃ sha, env.latestSha = some sha) ∧ env.saveOk = true := by
  by_cases h1 : env.repoOk = false
  · simp [processRequestBackground, h1] at hdone
  by_cases h2 : getNat data (str "round") = 1 ∧ env.licenseOk = false
  · simp [processRequestBackground, h1, h2] at hdone
  by_cases h3 : env.readmeOk = false
  · simp [processRequestBackground, h1, h2, h3] at hdone
  by_cases h4 : env.indexOk = false
  · simp [processRequestBackground, h1, h2, h3, h4] at hdone
  cases hsha : env.latestSha with
  | none => simp [processRequestBackground, h1, h2, h3, h4, hsha] at hdone
  | some sha =>
    by_cases h6 : env.saveOk = false
    · simp [processRequestBackground, h1, h2, h3, h4, hsha, h6] at hdone
    · exact ⟨by simpa using h1, h2, by simpa using h3, by simpa using h4,
        ⟨sha, rfl⟩, by simpa using h6⟩

theorem processRequestBackground_success (env : PipeEnv) (data : ReqDict)
    (sha : Str)
    (h1 : env.repoOk = true)
    (h2 : getNat data (str "round") = 1 → env.licenseOk = true)
    (h3 : env.readmeOk = true) (h4 : env.indexOk = true)
    (h5 : env.latestSha = some sha) (h6 : env.saveOk = true) :
    processRequestBackground env data =
      { trace := [Action.getOrCreateRepo (getStr data (str "task"))] ++
          (if 2 ≤ getNat data (str "round") then
            [Action.fetchReadme, Action.fetchHtml] else []) ++
          [Action.generateCode (pipePrompt env data)] ++
          (if getNat data (str "round") = 1 then
            [Action.commitFile (str "LICENSE")] else []) ++
          (if getNat data (str "round") = 1 ∧ env.decodedAtts ≠ [] then
            env.decodedAtts.map attCommitAction else []) ++
          [Action.commitFile (str "README.md")] ++
          (if getNat data (str "round") = 1 then
            [Action.enablePages (getStr data (str "task"))] else []) ++
          [Action.commitFile (str "index.html"), Action.getLatestSha,
           Action.waitDeploy sha,
           Action.notifyCall (getStr data (str "evaluation_url"))
             (pipePayload env data sha),
           Action.saveStore (storeSet (Storage.load env.storeFile)
             (dictKey data) (pipePayload env data sha))],
        finalStore := .valid (storeSet (Storage.load env.storeFile)
          (dictKey data) (pipePayload env data sha)),
        completed := true } := by
  have h2p : ¬(getNat data (str "round") = 1 ∧ env.licenseOk = false) := by
    rintro ⟨hr, hl⟩
    rw [h2 hr] at hl
    cases hl
  have e1 : (env.repoOk = false) ↔ False := by simp [h1]
  have e2 : (getNat data (str "round") = 1 ∧ env.licenseOk = false) ↔ False :=
    iff_false_intro h2p
  have e3 : (env.readmeOk = false) ↔ False := by simp [h3]
  have e4 : (env.indexOk = false) ↔ False := by simp [h4]
  have e6 : (env.saveOk = false) ↔ False := by simp [h6]
  simp only [processRequestBackground, e1, e2, e3, e4, e6, h5, if_false]
  simp [generate, pipePrompt, pipePayload, List.append_assoc]

theorem mem_ite_list {α : Type} (a : α) (c : Prop) [Decidable c]
    (l1 l2 : List α) :
    (a ∈ if c then l1 else l2) ↔ (if c then a ∈ l1 else a ∈ l2) := by
  split <;> rfl

/-- C10 (implicit): when the dedup-store file is corrupt, `Storage.load`
returns the empty map without raising, so the next completed background
run saves a store holding only its own key; any differently-keyed earlier
submission then fails the dedup lookup and is scheduled as new work. -/
theorem c10_corrupt_store_loss (env : PipeEnv) (data : ReqDict) (secret : Str)
    (hc : env.storeFile = .corrupt)
    (hdone : (processRequestBackground env data).completed = true) :
    (∃ p : Payload, (processRequestBackground env data).finalStore =
      .valid [(dictKey data, p)]) ∧
    (∀ d2 : ReqDict, (validate d2).1 = true →
      getVal d2 (str "secret") = some (.s secret) →
      dictKey d2 ≠ dictKey data →
      (receiveRequest secret (processRequestBackground env data).finalStore
          d2).scheduled = [d2] ∧
      (receiveRequest secret (processRequestBackground env data).finalStore
          d2).notified = []) := by
  obtain ⟨hrepo, hlic, hread, hidx, ⟨sha, hsha⟩, hsave⟩ :=
    processRequestBackground_completed env data hdone
  have h2 : getNat data (str "round") = 1 → env.licenseOk = true := by
    intro hr
    cases hl : env.licenseOk
    · exact absurd ⟨hr, hl⟩ hlic
    · rfl
  have hres := processRequestBackground_success env data sha hrepo h2 hread
    hidx hsha hsave
  have hstore : (processRequestBackground env data).finalStore =
      .valid [(dictKey data, pipePayload env data sha)] := by
    rw [hres]
    simp [hc, Storage.load, storeSet]
  refine ⟨⟨pipePayload env data sha, hstore⟩, ?_⟩
  intro d2 hv hsec hne
  rw [hstore]
  rcases hval : validate d2 with ⟨b, m⟩
  rw [hval] at hv
  have hb : b = true := hv
  subst hb
  have hfind : List.find? (fun q => decide (q.1 = dictKey d2))
      [(dictKey data, pipePayload env data sha)] = none := by
    simp only [List.find?]
    rw [decide_eq_false (fun h => hne h.symm)]
  constructor <;> simp [receiveRequest, hval, hsec, Storage.load, hfind]

theorem c10_corrupt_store_loss_witness :
    (∃ p, (processRequestBackground (testEnv .corrupt true) testData).finalStore =
      .valid [(dictKey testData, p)]) ∧
    (receiveRequest (str "s")
      (processRequestBackground (testEnv .corrupt true) testData).finalStore
      testData2).scheduled = [testData2] := by
  have h := c10_corrupt_store_loss (testEnv .corrupt true) testData (str "s")
    rfl (by decide)
  exact ⟨h.1, (h.2 testData2 (by decide) rfl (by decide)).1⟩

/-- C1: on a request whose dedup key is already stored, the intake handler
synchronously re-invokes the notifier with exactly the stored Published
Result, returns the duplicate response carrying it, and schedules no
background work; conversely a completed background run notifies a payload
and persists that same payload under the request's dedup key, so the
stored entry a replay re-sends is byte-for-byte the notified payload. -/
theorem c1_idempotent_replay (secret : Str) (sf : StoreFile) (data : ReqDict)
    (kp : Str × Payload)
    (hv : (validate data).1 = true)
    (hsec : getVal data (str "secret") = some (.s secret))
    (hfind : (Storage.load sf).find? (fun q => decide (q.1 = dictKey data)) =
      some kp) :
    receiveRequest secret sf data =
      { response := .duplicate
          (str "Request already processed, re-notification sent") kp.2,
        notified := [(getStr data (str "evaluation_url"), kp.2)],
        scheduled := [] } ∧
    (∀ (env : PipeEnv) (d : ReqDict),
      (processRequestBackground env d).completed = true →
      ∃ p : Payload,
        Action.notifyCall (getStr d (str "evaluation_url")) p ∈
          (processRequestBackground env d).trace ∧
        (processRequestBackground env d).finalStore =
          .valid (storeSet (Storage.load env.storeFile) (dictKey d) p) ∧
        (storeSet (Storage.load env.storeFile) (dictKey d) p).find?
          (fun q => decide (q.1 = dictKey d)) = some (dictKey d, p)) := by
  constructor
  · rcases hval : validate data with ⟨b, m⟩
    rw [hval] at hv
    have hb : b = true := hv
    subst hb
    simp [receiveRequest, hval, hsec, hfind]
  · intro env d hdone
    obtain ⟨hrepo, hlic, hread, hidx, ⟨sha, hsha⟩, hsave⟩ :=
      processRequestBackground_completed env d hdone
    have h2 : getNat d (str "round") = 1 → env.licenseOk = true := by
      intro hr
      cases hl : env.licenseOk
      · exact absurd ⟨hr, hl⟩ hlic
      · rfl
    have hres := processRequestBackground_success env d sha hrepo h2 hread
      hidx hsha hsave
    refine ⟨pipePayload env d sha, ?_, ?_, storeSet_find _ _ _⟩
    · rw [hres]
      simp
    · rw [hres]

theorem c1_idempotent_replay_witness :
    receiveRequest (str "s") (.valid [(dictKey testData, testPayload)]) testData =
      { response := .duplicate
          (str "Request already processed, re-notification sent") testPayload,
        notified := [(str "http://e.com/cb", testPayload)],
        scheduled := [] } := by
  have h := c1_idempotent_replay (str "s")
    (.valid [(dictKey testData, testPayload)]) testData
    (dictKey testData, testPayload) (by decide) rfl (by decide)
  rw [h.1]
  rfl

/-- C7 (amended): when an exception escapes any step of the background
unit it is caught at the top and the unit terminates; the dedup store is
never written in that case, and no notification is sent unless the
escaping step is the final `Storage.save` (which runs after the notifier
call, so in that one case the notification has already gone out). -/
theorem c7_pipeline_fatal (env : PipeEnv) (data : ReqDict)
    (hfail : (processRequestBackground env data).completed = false) :
    (processRequestBackground env data).finalStore = env.storeFile ∧
    (env.saveOk = true →
      ∀ u p, Action.notifyCall u p ∉ (processRequestBackground env data).trace) := by
  by_cases h1 : env.repoOk = false
  · exact ⟨by simp [processRequestBackground, h1], fun _ u p => by
      simp [processRequestBackground, h1]⟩
  by_cases h2 : getNat data (str "round") = 1 ∧ env.licenseOk = false
  · exact ⟨by simp [processRequestBackground, h1, h2], fun _ u p => by
      simp [processRequestBackground, h1, h2, mem_ite_list,
        attCommitAction_ne_notifyCall]⟩
  by_cases h3 : env.readmeOk = false
  · exact ⟨by simp [processRequestBackground, h1, h2, h3], fun _ u p => by
      simp [processRequestBackground, h1, h2, h3, mem_ite_list,
        attCommitAction_ne_notifyCall]⟩
  by_cases h4 : env.indexOk = false
  · exact ⟨by simp [processRequestBackground, h1, h2, h3, h4], fun _ u p => by
      simp [processRequestBackground, h1, h2, h3, h4, mem_ite_list,
        attCommitAction_ne_notifyCall]⟩
  cases hsha : env.latestSha with
  | none =>
    exact ⟨by simp [processRequestBackground, h1, h2, h3, h4, hsha],
      fun _ u p => by
        simp [processRequestBackground, h1, h2, h3, h4, hsha, mem_ite_list,
          attCommitAction_ne_notifyCall]⟩
  | some sha =>
    by_cases h6 : env.saveOk = false
    · refine ⟨by simp [processRequestBackground, h1, h2, h3, h4, hsha, h6], ?_⟩
      intro hs
      rw [hs] at h6
      cases h6
    · have h2l : getNat data (str "round") = 1 → env.licenseOk = true := by
        intro hr
        cases hl : env.licenseOk
        · exact absurd ⟨hr, hl⟩ h2
        · rfl
      have hres := processRequestBackground_success env data sha
        (by simpa using h1) h2l (by simpa using h3) (by simpa using h4) hsha
        (by simpa using h6)
      rw [hres] at hfail
      cases hfail

theorem c7_pipeline_fatal_counterexample :
    (processRequestBackground (testEnv .missing false) testData).completed = false ∧
    Action.notifyCall (str "http://e.com/cb")
        (pipePayload (testEnv .missing false) testData (str "abc123")) ∈
      (processRequestBackground (testEnv .missing false) testData).trace := by
  decide

theorem c7_pipeline_fatal_witness :
    (processRequestBackground { testEnv .missing true with repoOk := false }
      testData).finalStore = StoreFile.missing ∧
    Action.notifyCall (str "u") testPayload ∉
      (processRequestBackground { testEnv .missing true with repoOk := false }
        testData).trace := by
  have h := c7_pipeline_fatal { testEnv .missing true with repoOk := false }
    testData (by decide)
  exact ⟨h.1, h.2 (by decide) (str "u") testPayload⟩

theorem buildContext_infix_buildPrompt (brief : Str) (checks : List Str)
    (atts : List AttDec) (r : Nat) (pr ph : Option Str) :
    List.IsInfix (buildContext r pr ph) (buildPrompt brief checks atts r pr ph) := by
  refine ⟨promptPre ++ natStr r ++ str "\n\n",
    str "\n\n## Brief\n" ++ brief ++ str "\n\n## Attachments Available\n" ++
      (if (joinSep (str "\n") (atts.map (fun a =>
          str "- " ++ a.name ++ str " (" ++ a.mime ++ str "): " ++ a.preview))).isEmpty
       then str "None"
       else joinSep (str "\n") (atts.map (fun a =>
          str "- " ++ a.name ++ str " (" ++ a.mime ++ str "): " ++ a.preview))) ++
      str "\n\n## Evaluation Checks\n" ++
      joinSep (str "\n") (checks.map (fun c => str "- " ++ c)) ++ promptTail, ?_⟩
  simp [buildPrompt, List.append_assoc]

/-- C3 (amended): a completed round-1 run commits the generated license,
commits each decoded attachment and enables public serving; every
completed round ≥ 2 run skips all three and fetches the previous README
and markup; but the fetched context is threaded into the generation
prompt only when the round is exactly 2 — for any round ≠ 2 the prompt
is identical to one built with no prior context. -/
theorem c3_round_gating (env : PipeEnv) (data : ReqDict) (brief : Str)
    (checks : List Str) (atts : List AttDec) (pr ph : Option Str) (r : Nat) :
    ((processRequestBackground env data).completed = true →
      (getNat data (str "round") = 1 →
        Action.commitFile (str "LICENSE") ∈
          (processRequestBackground env data).trace ∧
        Action.enablePages (getStr data (str "task")) ∈
          (processRequestBackground env data).trace ∧
        (∀ a ∈ env.decodedAtts, attCommitAction a ∈
          (processRequestBackground env data).trace)) ∧
      (2 ≤ getNat data (str "round") →
        Action.fetchReadme ∈ (processRequestBackground env data).trace ∧
        Action.fetchHtml ∈ (processRequestBackground env data).trace ∧
        Action.commitFile (str "LICENSE") ∉
          (processRequestBackground env data).trace ∧
        (∀ nm, Action.enablePages nm ∉ (processRequestBackground env data).trace) ∧
        (∀ pth, Action.commitFile pth ∈ (processRequestBackground env data).trace →
          pth = str "README.md" ∨ pth = str "index.html") ∧
        (∀ pth, Action.commitBinaryFile pth ∉
          (processRequestBackground env data).trace))) ∧
    (r ≠ 2 →
      buildPrompt brief checks atts r pr ph = buildPrompt brief checks atts r none none) ∧
    (truthy pr = true →
      List.IsInfix (ctxReadmeSec (pr.getD []))
        (buildPrompt brief checks atts 2 pr ph)) := by
  refine ⟨?_, ?_, ?_⟩
  · intro hdone
    obtain ⟨hrepo, hlic, hread, hidx, ⟨sha, hsha⟩, hsave⟩ :=
      processRequestBackground_completed env data hdone
    have h2 : getNat data (str "round") = 1 → env.licenseOk = true := by
      intro hr
      cases hl : env.licenseOk
      · exact absurd ⟨hr, hl⟩ hlic
      · rfl
    have hres := processRequestBackground_success env data sha hrepo h2 hread
      hidx hsha hsave
    constructor
    · intro hr
      refine ⟨?_, ?_, ?_⟩
      · rw [hres]
        simp [hr]
      · rw [hres]
        simp [hr]
      · intro a ha
        have hA : ¬(env.decodedAtts = []) := by
          intro h
          rw [h] at ha
          cases ha
        have hSub : attCommitAction a ∈ env.decodedAtts.map attCommitAction :=
          List.mem_map_of_mem _ ha
        rw [hres]
        simp [hr, hA, hSub]
    · intro hr2
      have hne1 : ¬ getNat data (str "round") = 1 := by omega
      have lc1 : ¬ (str "LICENSE" = str "README.md") := by decide
      have lc2 : ¬ (str "LICENSE" = str "index.html") := by decide
      refine ⟨?_, ?_, ?_, ?_, ?_, ?_⟩
      · rw [hres]
        simp [hr2, hne1]
      · rw [hres]
        simp [hr2, hne1]
      · rw [hres]
        simp [hr2, hne1, lc1, lc2]
      · intro nm
        rw [hres]
        simp [hr2, hne1]
      · intro pth hp
        rw [hres] at hp
        simp [hr2, hne1] at hp
        exact hp
      · intro pth
        rw [hres]
        simp [hr2, hne1]
  · intro hne2
    simp [buildPrompt, buildContext, hne2]
  · intro hpr
    have hsec : List.IsInfix (ctxReadmeSec (pr.getD [])) (buildContext 2 pr ph) := by
      unfold buildContext
      rw [if_pos ⟨rfl, by simp [hpr]⟩, if_pos hpr]
      exact ⟨ctxBase, (if truthy ph then ctxHtmlSec (ph.getD []) else []) ++ ctxTail,
        by simp [List.append_assoc]⟩
    exact hsec.trans (buildContext_infix_buildPrompt brief checks atts 2 pr ph)

theorem c3_round_gating_counterexample :
    buildPrompt (str "b") [] [] 3 (some (str "OLDREADME")) (some (str "OLDHTML")) =
      buildPrompt (str "b") [] [] 3 none none ∧
    containsSub (str "OLDREADME")
      (buildPrompt (str "b") [] [] 3 (some (str "OLDREADME")) (some (str "OLDHTML"))) =
      false := by
  decide

theorem c3_round_gating_witness :
    Action.commitFile (str "LICENSE") ∈
      (processRequestBackground (testEnv .missing true) testData).trace ∧
    Action.commitFile (str "LICENSE") ∉
      (processRequestBackground (testEnv .missing true) testDataR2).trace ∧
    Action.fetchReadme ∈
      (processRequestBackground (testEnv .missing true) testDataR2).trace ∧
    List.IsInfix (ctxReadmeSec (str "OLD"))
      (buildPrompt (str "b") [] [] 2 (some (str "OLD")) none) ∧
    buildPrompt (str "b") [] [] 3 (some (str "OLD")) none =
      buildPrompt (str "b") [] [] 3 none none := by
  refine ⟨?_, ?_, ?_, ?_, ?_⟩
  · exact (((c3_round_gating (testEnv .missing true) testData (str "b") [] []
      none none 0).1 (by decide)).1 (by decide)).1
  · exact (((c3_round_gating (testEnv .missing true) testDataR2 (str "b") [] []
      none none 0).1 (by decide)).2 (by decide)).2.2.1
  · exact (((c3_round_gating (testEnv .missing true) testDataR2 (str "b") [] []
      none none 0).1 (by decide)).2 (by decide)).1
  · exact (c3_round_gating (testEnv .missing true) testData (str "b") [] []
      (some (str "OLD")) none 2).2.2 (by decide)
  · exact (c3_round_gating (testEnv .missing true) testData (str "b") [] []
      (some (str "OLD")) none 3).2.1 (by decide)

theorem splitNl_ne_nil : ∀ s : Str, splitNl s ≠ [] := by
  intro s
  cases s with
  | nil => simp [splitNl]
  | cons c t =>
    simp only [splitNl]
    split
    · simp
    · cases splitNl t <;> simp

theorem splitNl_no_newline : ∀ s : Str, (∀ ch ∈ s, ch ≠ '\n') → splitNl s = [s] := by
  intro s
  induction s with
  | nil => intro _; rfl
  | cons c t ih =>
    intro h
    have hc : ¬ c = '\n' := h c (by simp)
    simp only [splitNl, if_neg hc]
    rw [ih (fun ch hch => h ch (by simp [hch]))]

theorem splitNl_append : ∀ X Y : Str, splitNl (X ++ '\n' :: Y) = splitNl X ++ splitNl Y := by
  intro X Y
  induction X with
  | nil => simp [splitNl]
  | cons c t ih =>
    by_cases hc : c = '\n'
    · subst hc
      show splitNl ('\n' :: (t ++ '\n' :: Y)) = splitNl ('\n' :: t) ++ splitNl Y
      simp only [splitNl, List.append_eq, eq_self_iff_true, if_true]
      rw [ih]
      rfl
    · show splitNl (c :: (t ++ '\n' :: Y)) = splitNl (c :: t) ++ splitNl Y
      simp only [splitNl, List.append_eq]
      rw [if_neg hc, if_neg hc, ih]
      have hne := splitNl_ne_nil t
      cases ht : splitNl t with
      | nil => exact absurd ht hne
      | cons h r => rfl

theorem joinSep_splitNl : ∀ s : Str, joinSep (str "\n") (splitNl s) = s := by
  intro s
  induction s with
  | nil => rfl
  | cons c t ih =>
    have hne := splitNl_ne_nil t
    by_cases hc : c = '\n'
    · subst hc
      show joinSep (str "\n") (splitNl ('\n' :: t)) = '\n' :: t
      simp only [splitNl, eq_self_iff_true, if_true]
      cases ht : splitNl t with
      | nil => exact absurd ht hne
      | cons h r =>
        rw [ht] at ih
        show joinSep (str "\n") ([] :: h :: r) = '\n' :: t
        rw [show joinSep (str "\n") ([] :: h :: r) =
          [] ++ str "\n" ++ joinSep (str "\n") (h :: r) from rfl]
        rw [ih]
        rfl
    · show joinSep (str "\n") (splitNl (c :: t)) = c :: t
      simp only [splitNl]
      rw [if_neg hc]
      cases ht : splitNl t with
      | nil => exact absurd ht hne
      | cons h r =>
        rw [ht] at ih
        cases r with
        | nil =>
          show joinSep (str "\n") [c :: h] = c :: t
          rw [show joinSep (str "\n") [c :: h] = c :: h from rfl]
          rw [show joinSep (str "\n") [h] = h from rfl] at ih
          rw [ih]
        | cons h2 r2 =>
          show joinSep (str "\n") ((c :: h) :: h2 :: r2) = c :: t
          rw [show joinSep (str "\n") ((c :: h) :: h2 :: r2) =
            (c :: h) ++ str "\n" ++ joinSep (str "\n") (h2 :: r2) from rfl]
          rw [show joinSep (str "\n") (h :: h2 :: r2) =
            h ++ str "\n" ++ joinSep (str "\n") (h2 :: r2) from rfl] at ih
          rw [← ih]
          simp [List.append_assoc]

theorem lstrip_cons_of_not_space (c : Char) (t : Str) (hc : pyIsSpace c = false) :
    lstrip (c :: t) = c :: t := by
  simp [lstrip, List.dropWhile_cons, hc]

theorem lstrip_append (X Y : Str) :
    lstrip (X ++ Y) = if lstrip X = [] then lstrip Y else lstrip X ++ Y := by
  induction X with
  | nil => simp [lstrip]
  | cons c t ih =>
    simp only [List.cons_append, lstrip, List.dropWhile_cons] at ih ⊢
    by_cases hc : pyIsSpace c = true
    · rw [if_pos hc, if_pos hc]
      exact ih
    · rw [if_neg hc, if_neg hc]
      simp

theorem rstrip_append (X Y : Str) :
    rstrip (X ++ Y) = if rstrip Y = [] then rstrip X else X ++ rstrip Y := by
  unfold rstrip
  rw [List.reverse_append]
  have h := lstrip_append Y.reverse X.reverse
  simp only [lstrip] at h
  rw [h]
  by_cases hy : List.dropWhile pyIsSpace Y.reverse = []
  · rw [if_pos hy, if_pos (by simp [hy])]
  · rw [if_neg hy, if_neg (by simp [hy])]
    rw [List.reverse_append, List.reverse_reverse]

theorem lstrip_head_not_space : ∀ (s : Str) (c : Char) (u : Str),
    lstrip s = c :: u → pyIsSpace c = false := by
  intro s
  induction s with
  | nil => intro c u h; cases h
  | cons a t ih =>
    intro c u h
    simp only [lstrip, List.dropWhile_cons] at h
    by_cases ha : pyIsSpace a = true
    · rw [if_pos ha] at h
      exact ih c u h
    · rw [if_neg ha] at h
      cases h
      simpa using ha

theorem rstrip_cons_of_not_space (c : Char) (u : Str) (hc : pyIsSpace c = false) :
    rstrip (c :: u) = c :: rstrip u := by
  have h := rstrip_append [c] u
  have hc1 : rstrip [c] = [c] := by
    simp [rstrip, List.dropWhile_cons, hc]
  rw [show [c] ++ u = c :: u from rfl] at h
  rw [h]
  by_cases hu : rstrip u = []
  · rw [if_pos hu, hc1, hu]
  · rw [if_neg hu]
    rfl

theorem dropWhile_idem (p : Char → Bool) : ∀ l : Str,
    List.dropWhile p (List.dropWhile p l) = List.dropWhile p l := by
  intro l
  induction l with
  | nil => rfl
  | cons c t ih =>
    simp only [List.dropWhile_cons]
    by_cases hc : p c = true
    · rw [if_pos hc]
      exact ih
    · rw [if_neg hc]
      simp only [List.dropWhile_cons]
      rw [if_neg hc]

theorem lstrip_idem (s : Str) : lstrip (lstrip s) = lstrip s :=
  dropWhile_idem pyIsSpace s

theorem rstrip_idem (s : Str) : rstrip (rstrip s) = rstrip s := by
  unfold rstrip
  rw [List.reverse_reverse]
  rw [show List.dropWhile pyIsSpace (List.dropWhile pyIsSpace s.reverse) =
    List.dropWhile pyIsSpace s.reverse from dropWhile_idem pyIsSpace s.reverse]

theorem pyStrip_idem (s : Str) : pyStrip (pyStrip s) = pyStrip s := by
  unfold pyStrip
  cases hu : lstrip s with
  | nil =>
    simp [rstrip, lstrip]
  | cons c u =>
    have hc := lstrip_head_not_space s c u hu
    rw [rstrip_cons_of_not_space c u hc]
    rw [lstrip_cons_of_not_space c (rstrip u) hc]
    rw [show c :: rstrip u = rstrip (c :: u) from (rstrip_cons_of_not_space c u hc).symm]
    rw [rstrip_idem]

theorem mem_lstrip_of_not_space : ∀ (s : Str) (c : Char), c ∈ s →
    pyIsSpace c = false → c ∈ lstrip s := by
  intro s
  induction s with
  | nil => intro c h; cases h
  | cons a t ih =>
    intro c hmem hc
    simp only [lstrip, List.dropWhile_cons]
    by_cases ha : pyIsSpace a = true
    · rw [if_pos ha]
      rcases List.mem_cons.mp hmem with h | h
      · subst h
        rw [hc] at ha
        cases ha
      · exact ih c h hc
    · rw [if_neg ha]
      exact hmem

theorem mem_rstrip_of_not_space (s : Str) (c : Char) (hmem : c ∈ s)
    (hc : pyIsSpace c = false) : c ∈ rstrip s := by
  unfold rstrip
  rw [List.mem_reverse]
  exact mem_lstrip_of_not_space s.reverse c (by simpa using hmem) hc

theorem pyStrip_ne_nil_of_mem (s : Str) (c : Char) (hmem : c ∈ s)
    (hc : pyIsSpace c = false) : pyStrip s ≠ [] := by
  intro h
  have h1 : c ∈ lstrip s := mem_lstrip_of_not_space s c hmem hc
  have h2 : c ∈ rstrip (lstrip s) := mem_rstrip_of_not_space (lstrip s) c h1 hc
  rw [show rstrip (lstrip s) = pyStrip s from rfl, h] at h2
  cases h2

theorem nil_isPrefixOf (X : Str) : List.isPrefixOf ([] : Str) X = true := by
  cases X <;> rfl

theorem isPrefixOf_append_of_le : ∀ (sep Q R : Str), sep.length ≤ Q.length →
    sep.isPrefixOf (Q ++ R) = sep.isPrefixOf Q := by
  intro sep
  induction sep with
  | nil => intro Q R _; rw [nil_isPrefixOf, nil_isPrefixOf]
  | cons a sep' ih =>
    intro Q R h
    cases Q with
    | nil => simp at h
    | cons q Q' =>
      simp only [List.cons_append, List.isPrefixOf, List.append_eq]
      rw [ih Q' R (by simpa using h)]

theorem isPrefixOf_of_append_le : ∀ (Q sep R : Str), Q.length ≤ sep.length →
    sep.isPrefixOf (Q ++ R) = true → Q.isPrefixOf sep = true := by
  intro Q
  induction Q with
  | nil => intro sep R _ _; rw [nil_isPrefixOf]
  | cons q Q' ih =>
    intro sep R hlen hp
    cases sep with
    | nil => simp at hlen
    | cons s sep' =>
      simp only [List.cons_append, List.isPrefixOf, List.append_eq,
        Bool.and_eq_true] at hp ⊢
      obtain ⟨h1, h2⟩ := hp
      refine ⟨?_, ih sep' R (by simpa using hlen) h2⟩
      rw [beq_iff_eq] at h1 ⊢
      exact h1.symm

theorem isPrefixOf_append_self : ∀ (sep Y : Str), sep.isPrefixOf (sep ++ Y) = true := by
  intro sep Y
  induction sep with
  | nil => rw [nil_isPrefixOf]
  | cons a s ih =>
    simp only [List.cons_append, List.isPrefixOf, List.append_eq]
    simp [ih]

theorem split1_append_sepfree (sep : Str) : ∀ (P R : Str),
    (∀ i, i < P.length → sep.isPrefixOf (P.drop i ++ R) = false) →
    split1 sep (P ++ R) = (P ++ (split1 sep R).1, (split1 sep R).2) := by
  intro P
  induction P with
  | nil => intro R _; simp
  | cons c P' ih =>
    intro R h
    have h0 : sep.isPrefixOf ((c :: P') ++ R) = false := by
      simpa using h 0 (by simp)
    show split1 sep (c :: (P' ++ R)) = _
    simp only [split1]
    rw [if_neg (by simp [show sep.isPrefixOf (c :: (P' ++ R)) = false from h0])]
    rw [ih R (fun i hi => by simpa using h (i + 1) (by simpa using Nat.succ_lt_succ hi))]
    rfl

theorem split1_snd_suffix (sep : Str) : ∀ (s rr : Str),
    (split1 sep s).2 = some rr → List.IsSuffix rr s := by
  intro s
  induction s with
  | nil => intro rr h; cases h
  | cons c t ih =>
    intro rr h
    simp only [split1] at h
    by_cases hp : sep.isPrefixOf (c :: t) = true
    · rw [if_pos hp] at h
      simp only [Option.some.injEq] at h
      subst h
      exact List.drop_suffix _ _
    · rw [if_neg hp] at h
      exact (ih rr h).trans (List.suffix_cons c t)

theorem split1_snd_length (sep : Str) (hsep : sep ≠ []) : ∀ (X Y : Str),
    ∃ rr, (split1 sep (X ++ sep ++ Y)).2 = some rr ∧ Y.length ≤ rr.length := by
  intro X
  induction X with
  | nil =>
    intro Y
    match sep, hsep with
    | m :: ms, _ =>
      refine ⟨Y, ?_, Nat.le_refl _⟩
      show (split1 (m :: ms) ((m :: ms) ++ Y)).2 = some Y
      have hps : (m :: ms).isPrefixOf (m :: (ms ++ Y)) = true := by
        rw [show m :: (ms ++ Y) = (m :: ms) ++ Y from rfl]
        exact isPrefixOf_append_self _ _
      simp only [split1, List.append_eq]
      rw [if_pos hps]
      simp only [Option.some.injEq]
      rw [show m :: (ms ++ Y) = (m :: ms) ++ Y from rfl, List.drop_left]
  | cons c X' ih =>
    intro Y
    show ∃ rr, (split1 sep (c :: (X' ++ sep ++ Y))).2 = some rr ∧ _
    by_cases hp : sep.isPrefixOf (c :: (X' ++ sep ++ Y)) = true
    · refine ⟨List.drop sep.length (c :: (X' ++ sep ++ Y)), ?_, ?_⟩
      · simp only [split1]
        rw [if_pos hp]
      · have := (List.isPrefixOf_iff_prefix.mp hp).length_le
        simp only [List.length_drop, List.length_cons, List.length_append] at this ⊢
        omega
    · obtain ⟨rr, h1, h2⟩ := ih Y
      refine ⟨rr, ?_, h2⟩
      simp only [split1]
      rw [if_neg hp]
      exact h1

theorem containsSub_append (sep : Str) (hsep : sep ≠ []) (X Y : Str) :
    containsSub sep (X ++ sep ++ Y) = true := by
  induction X with
  | nil =>
    match sep, hsep with
    | m :: ms, _ =>
      show containsSub (m :: ms) ((m :: ms) ++ Y) = true
      have hps : (m :: ms).isPrefixOf (m :: (ms ++ Y)) = true := by
        rw [show m :: (ms ++ Y) = (m :: ms) ++ Y from rfl]
        exact isPrefixOf_append_self _ _
      simp only [containsSub, List.append_eq]
      rw [hps]
      rfl
  | cons c X' ih =>
    show containsSub sep (c :: (X' ++ sep ++ Y)) = true
    simp only [containsSub]
    rw [ih]
    simp

theorem suffix_of_suffix_le {α : Type} {A B s : List α} (hA : List.IsSuffix A s)
    (hB : List.IsSuffix B s) (h : B.length ≤ A.length) : List.IsSuffix B A := by
  obtain ⟨u, hu⟩ := hA
  obtain ⟨v, hv⟩ := hB
  have hlen : v.length + B.length = u.length + A.length := by
    have h1 := congrArg List.length hu
    have h2 := congrArg List.length hv
    simp only [List.length_append] at h1 h2
    omega
  have hA' : s.drop u.length = A := by rw [← hu, List.drop_left]
  have hB' : s.drop v.length = B := by rw [← hv, List.drop_left]
  have hd : B = A.drop (v.length - u.length) := by
    rw [← hA', List.drop_drop, ← hB']
    congr 1
    omega
  rw [hd]
  exact List.drop_suffix _ _

theorem joinSep_last_suffix (sep : Str) : ∀ (ls : List Str) (lastEl : Str),
    ls.getLast? = some lastEl → List.IsSuffix lastEl (joinSep sep ls) := by
  intro ls
  induction ls with
  | nil => intro lastEl h; cases h
  | cons x xs ih =>
    intro lastEl h
    cases xs with
    | nil =>
      simp only [List.getLast?_singleton, Option.some.injEq] at h
      subst h
      exact List.suffix_refl _
    | cons y ys =>
      have h2 : (y :: ys).getLast? = some lastEl := by
        rw [← h]
        rfl
      have := ih lastEl h2
      simp only [joinSep]
      exact this.trans (List.suffix_append _ _)

/-- C6: `_parse_response` splits on the literal `---README---` marker when
present (markup = text before, readme = text after, both stripped); when
the marker is absent the whole text becomes the markup and the readme is
synthesized deterministically from the brief/checks/attachments;
`_strip_code_block` leaves a non-fenced text stripped, and on a fenced
text drops the leading triple-backtick line (with any language tag) and a
trailing line that is exactly a triple-backtick. -/
theorem c6_parse_response (text brief : Str) (checks : List Str)
    (atts : List AttDec) (r : Nat) :
    (containsSub readmeMarker text = true →
      parseResponse text brief checks atts r =
        { indexHtml := stripCodeBlock (pyStrip (split1 readmeMarker text).1),
          readme :=
            stripCodeBlock (pyStrip ((split1 readmeMarker text).2.getD [])) }) ∧
    (containsSub readmeMarker text = false →
      parseResponse text brief checks atts r =
        { indexHtml := stripCodeBlock (pyStrip text),
          readme := stripCodeBlock (fallbackReadme brief checks atts r) }) ∧
    ((str "```").isPrefixOf (pyStrip text) = false →
      stripCodeBlock text = pyStrip text) ∧
    (∀ lang body : Str, (∀ ch ∈ lang, ch ≠ '\n') →
      stripCodeBlock (str "```" ++ lang ++ str "\n" ++ body ++ str "\n```") =
        pyStrip body) := by
  refine ⟨?_, ?_, ?_, ?_⟩
  · intro h
    simp [parseResponse, h]
  · intro h
    simp [parseResponse, h]
  · intro h
    simp only [stripCodeBlock]
    rw [if_neg (by simp [h])]
    exact pyStrip_idem text
  · intro lang body hlang
    have hTeq : str "```" ++ lang ++ str "\n" ++ body ++ str "\n```" =
        (str "```" ++ lang ++ str "\n" ++ body ++ str "\n``") ++ ['`'] := by
      rw [show str "\n```" = str "\n``" ++ ['`'] from rfl]
      simp [List.append_assoc]
    have hl : lstrip (str "```" ++ lang ++ str "\n" ++ body ++ str "\n```") =
        str "```" ++ lang ++ str "\n" ++ body ++ str "\n```" := by
      rw [show str "```" ++ lang ++ str "\n" ++ body ++ str "\n```" =
        '`' :: (str "``" ++ lang ++ str "\n" ++ body ++ str "\n```") from rfl]
      exact lstrip_cons_of_not_space '`' _ (by decide)
    have hps : pyStrip (str "```" ++ lang ++ str "\n" ++ body ++ str "\n```") =
        str "```" ++ lang ++ str "\n" ++ body ++ str "\n```" := by
      unfold pyStrip
      rw [hl, hTeq, rstrip_append]
      rw [if_neg (by decide)]
      rw [show rstrip ['`'] = ['`'] from by decide]
    have hfence : (str "```").isPrefixOf
        (str "```" ++ lang ++ str "\n" ++ body ++ str "\n```") = true := by
      rw [show str "```" ++ lang ++ str "\n" ++ body ++ str "\n```" =
        str "```" ++ (lang ++ str "\n" ++ body ++ str "\n```") from by
          simp [List.append_assoc]]
      exact isPrefixOf_append_self _ _
    have hsplit : splitNl (str "```" ++ lang ++ str "\n" ++ body ++ str "\n```") =
        [str "```" ++ lang] ++ (splitNl body ++ [str "```"]) := by
      rw [show str "```" ++ lang ++ str "\n" ++ body ++ str "\n```" =
        (str "```" ++ lang) ++ '\n' :: (body ++ '\n' :: str "```") from by
          rw [show str "\n```" = '\n' :: str "```" from rfl,
            show str "\n" = ['\n'] from rfl]
          simp [List.append_assoc]]
      rw [splitNl_append]
      rw [splitNl_append]
      rw [splitNl_no_newline (str "```" ++ lang) ?_]
      rw [splitNl_no_newline (str "```") (by decide)]
      intro ch hch
      rcases List.mem_append.mp hch with h | h
      · exact (show ∀ c ∈ str "```", c ≠ '\n' by decide) ch h
      · exact hlang ch h
    simp only [stripCodeBlock]
    rw [hps, if_pos hfence, hsplit]
    rw [show ([str "```" ++ lang] ++ (splitNl body ++ [str "```"])).drop 1 =
      splitNl body ++ [str "```"] from rfl]
    simp only [List.getLast?_concat]
    rw [if_pos (show pyStrip (str "```") = str "```" by decide)]
    rw [List.dropLast_concat]
    rw [joinSep_splitNl]

theorem c6_parse_response_witness :
    parseResponse (str "<html>x</html>\n---README---\n# Title") (str "b") [] [] 1 =
      { indexHtml := str "<html>x</html>", readme := str "# Title" } ∧
    stripCodeBlock (str "```" ++ str "html" ++ str "\n" ++ str "<p>hi</p>" ++
        str "\n```") = pyStrip (str "<p>hi</p>") := by
  constructor
  · have h := (c6_parse_response (str "<html>x</html>\n---README---\n# Title")
      (str "b") [] [] 1).1 (by decide)
    rw [h]
    rfl
  · exact (c6_parse_response (str "x") (str "b") [] [] 1).2.2.2
      (str "html") (str "<p>hi</p>") (by decide)

theorem pre_no_marker : ∀ i, i < fallbackHtmlPre.length →
    readmeMarker.isPrefixOf (fallbackHtmlPre.drop i) = false := by
  decide

theorem pre_no_marker_within : ∀ i, i < fallbackHtmlPre.length →
    (fallbackHtmlPre.drop i).isPrefixOf readmeMarker = false := by
  decide

theorem pre_safe (R : Str) : ∀ i, i < fallbackHtmlPre.length →
    readmeMarker.isPrefixOf (fallbackHtmlPre.drop i ++ R) = false := by
  intro i hi
  by_cases hlen : readmeMarker.length ≤ (fallbackHtmlPre.drop i).length
  · rw [isPrefixOf_append_of_le _ _ _ hlen]
    exact pre_no_marker i hi
  · by_contra hq
    rw [Bool.not_eq_false] at hq
    have h2 := isPrefixOf_of_append_le _ _ _ (by omega) hq
    rw [pre_no_marker_within i hi] at h2
    cases h2

theorem fence_false_of_head (c : Char) (X : Str) (hc : ('`' == c) = false) :
    (str "```").isPrefixOf (c :: X) = false := by
  show List.isPrefixOf ('`' :: '`' :: '`' :: []) (c :: X) = false
  simp only [List.isPrefixOf, hc, Bool.false_and]

theorem stripCodeBlock_head_ne (c : Char) (X : Str) (hc : pyIsSpace c = false)
    (hcb : ('`' == c) = false) : stripCodeBlock (pyStrip (c :: X)) ≠ [] := by
  have h1 : pyStrip (c :: X) = c :: rstrip X := by
    unfold pyStrip
    rw [lstrip_cons_of_not_space c X hc, rstrip_cons_of_not_space c X hc]
  simp only [stripCodeBlock]
  rw [pyStrip_idem, h1]
  rw [if_neg (by simp [fence_false_of_head c (rstrip X) hcb])]
  exact pyStrip_ne_nil_of_mem _ c (by simp) hc

theorem stripCodeBlock_keep_suffix (x : Str)
    (h : List.IsSuffix (str "\n## License\nMIT License\n") x) :
    stripCodeBlock (pyStrip x) ≠ [] := by
  obtain ⟨Z, hZ⟩ := h
  have hx : x = Z ++ (['\n'] ++ (str "## License\nMIT License" ++ ['\n'])) := by
    rw [← hZ]
    rw [show str "\n## License\nMIT License\n" =
      ['\n'] ++ (str "## License\nMIT License" ++ ['\n']) from rfl]
  have hS0head : pyIsSpace '#' = false := by decide
  have hstrip : ∃ W, pyStrip x = W ++ str "## License\nMIT License" := by
    unfold pyStrip
    rw [hx]
    rw [lstrip_append]
    by_cases hz : lstrip Z = []
    · rw [if_pos hz]
      rw [show lstrip (['\n'] ++ (str "## License\nMIT License" ++ ['\n'])) =
        str "## License\nMIT License" ++ ['\n'] from by
          rw [show ['\n'] ++ (str "## License\nMIT License" ++ ['\n']) =
            '\n' :: (str "## License\nMIT License" ++ ['\n']) from rfl]
          rw [show lstrip ('\n' :: (str "## License\nMIT License" ++ ['\n'])) =
            lstrip (str "## License\nMIT License" ++ ['\n']) from by
              simp only [lstrip, List.dropWhile_cons]
              rw [if_pos (by decide)]]
          rw [show str "## License\nMIT License" ++ ['\n'] =
            '#' :: (str "# License\nMIT License" ++ ['\n']) from rfl]
          exact lstrip_cons_of_not_space _ _ (by decide)]
      refine ⟨[], ?_⟩
      rw [rstrip_append]
      rw [if_pos (by decide)]
      rw [show rstrip (str "## License\nMIT License") =
        str "## License\nMIT License" from by decide]
      rfl
    · rw [if_neg hz]
      refine ⟨lstrip Z ++ ['\n'], ?_⟩
      rw [show lstrip Z ++ (['\n'] ++ (str "## License\nMIT License" ++ ['\n'])) =
        (lstrip Z ++ ['\n'] ++ str "## License\nMIT License") ++ ['\n'] from by
          simp [List.append_assoc]]
      rw [rstrip_append]
      rw [if_pos (by decide)]
      rw [show lstrip Z ++ ['\n'] ++ str "## License\nMIT License" =
        (lstrip Z ++ ['\n']) ++ str "## License\nMIT License" from by
          simp [List.append_assoc]]
      rw [rstrip_append]
      rw [if_neg (by decide)]
      rw [show rstrip (str "## License\nMIT License") =
        str "## License\nMIT License" from by decide]
  obtain ⟨W, hW⟩ := hstrip
  simp only [stripCodeBlock]
  rw [pyStrip_idem, hW]
  by_cases hff : (str "```").isPrefixOf (W ++ str "## License\nMIT License") = true
  · rw [if_pos hff]
    have hsplit : splitNl (W ++ str "## License\nMIT License") =
        splitNl (W ++ str "## License") ++ [str "MIT License"] := by
      rw [show W ++ str "## License\nMIT License" =
        (W ++ str "## License") ++ '\n' :: str "MIT License" from by
          rw [show str "## License\nMIT License" =
            str "## License" ++ '\n' :: str "MIT License" from rfl]
          simp [List.append_assoc]]
      rw [splitNl_append]
      rw [splitNl_no_newline (str "MIT License") (by decide)]
    rw [hsplit]
    have hA := splitNl_ne_nil (W ++ str "## License")
    have hdrop : (splitNl (W ++ str "## License") ++ [str "MIT License"]).drop 1 =
        (splitNl (W ++ str "## License")).drop 1 ++ [str "MIT License"] := by
      cases hA2 : splitNl (W ++ str "## License") with
      | nil => exact absurd hA2 hA
      | cons a l => rfl
    rw [hdrop]
    rw [List.getLast?_concat]
    simp only []
    rw [if_neg (show ¬ (pyStrip (str "MIT License") = str "```") by decide)]
    have hlastSfx : List.IsSuffix (str "MIT License")
        (joinSep (str "\n")
          ((splitNl (W ++ str "## License")).drop 1 ++ [str "MIT License"])) :=
      joinSep_last_suffix (str "\n") _ _ (List.getLast?_concat _)
    have hmem : 'M' ∈ joinSep (str "\n")
        ((splitNl (W ++ str "## License")).drop 1 ++ [str "MIT License"]) :=
      hlastSfx.subset (by decide)
    exact pyStrip_ne_nil_of_mem _ 'M' hmem (by decide)
  · rw [if_neg hff]
    rw [show W ++ str "## License\nMIT License" = pyStrip x from hW.symm]
    rw [pyStrip_idem, hW]
    intro hcon
    have hlen := congrArg List.length hcon
    simp only [List.length_append, List.length_nil] at hlen
    have h22 : (str "## License\nMIT License").length = 22 := by decide
    omega

theorem genFiles_mk_indexHtml (A B : Str) : (GenFiles.mk A B).indexHtml = A := rfl

theorem genFiles_mk_readme (A B : Str) : (GenFiles.mk A B).readme = B := rfl

theorem parseResponse_marker (text brief : Str) (checks : List Str) (atts : List AttDec)
    (r : Nat) (h : containsSub readmeMarker text = true) :
    parseResponse text brief checks atts r =
      { indexHtml := stripCodeBlock (pyStrip (split1 readmeMarker text).1),
        readme := stripCodeBlock (pyStrip ((split1 readmeMarker text).2.getD [])) } := by
  simp [parseResponse, h]

theorem stripCB_pre_ne (REST : Str) :
    stripCodeBlock (pyStrip ((split1 readmeMarker (fallbackHtmlPre ++ REST)).1)) ≠ [] := by
  rw [split1_append_sepfree readmeMarker fallbackHtmlPre REST (pre_safe REST)]
  show stripCodeBlock (pyStrip ('<' :: (fallbackHtmlPre.tail ++
    (split1 readmeMarker REST).1))) ≠ []
  exact stripCodeBlock_head_ne '<' _ (by decide) (by decide)

theorem parse_fallback_ne (b : Str) (c : List Str) (atts : List AttDec) (r : Nat) :
    (parseResponse (fallbackHtml b c) b c atts r).indexHtml ≠ [] ∧
    (parseResponse (fallbackHtml b c) b c atts r).readme ≠ [] := by
  have hform : fallbackHtml b c =
      (fallbackHtmlPre ++ b ++
        str "</p>\n        <h2>Checks to Implement</h2>\n        <ul>" ++
        joinSep [] (c.map (fun ch => str "<li>" ++ ch ++ str "</li>")) ++
        str "</ul>\n    </div>\n</body>\n</html>\n") ++ readmeMarker ++
      (str "\n" ++ fallbackReadme b c [] 1) := by
    simp only [fallbackHtml]
    rw [show str "</ul>\n    </div>\n</body>\n</html>\n---README---\n" =
      str "</ul>\n    </div>\n</body>\n</html>\n" ++ readmeMarker ++ str "\n" from by
        decide]
    simp [List.append_assoc]
  have hmarker : containsSub readmeMarker (fallbackHtml b c) = true := by
    rw [hform]
    exact containsSub_append readmeMarker (by decide) _ _
  have htail1 : List.IsSuffix
      (str "\n\n## Usage\n1. Open `index.html` in a web browser\n2. The application should be fully functional\n\n## Technical Details\n- Single-page application\n- No build process required\n- All dependencies loaded from CDN\n\n## License\nMIT License\n")
      (fallbackReadme b c [] 1) := by
    simp only [fallbackReadme]
    exact List.suffix_append _ _
  have htail2 : List.IsSuffix (str "\n## License\nMIT License\n")
      (fallbackReadme b c [] 1) := by
    refine List.IsSuffix.trans ⟨str "\n\n## Usage\n1. Open `index.html` in a web browser\n2. The application should be fully functional\n\n## Technical Details\n- Single-page application\n- No build process required\n- All dependencies loaded from CDN\n", by decide⟩ htail1
  constructor
  · rw [parseResponse_marker _ _ _ _ _ hmarker, genFiles_mk_indexHtml]
    have hRdecomp : fallbackHtml b c = fallbackHtmlPre ++ (b ++
        (str "</p>\n        <h2>Checks to Implement</h2>\n        <ul>" ++
        (joinSep [] (c.map (fun ch => str "<li>" ++ ch ++ str "</li>")) ++
        (str "</ul>\n    </div>\n</body>\n</html>\n---README---\n" ++
        fallbackReadme b c [] 1)))) := by
      simp [fallbackHtml, List.append_assoc]
    rw [hRdecomp]
    exact stripCB_pre_ne _
  · rw [parseResponse_marker _ _ _ _ _ hmarker, genFiles_mk_readme]
    rw [hform]
    obtain ⟨rr, hrr, hlenrr⟩ := split1_snd_length readmeMarker (by decide)
      (fallbackHtmlPre ++ b ++
        str "</p>\n        <h2>Checks to Implement</h2>\n        <ul>" ++
        joinSep [] (c.map (fun ch => str "<li>" ++ ch ++ str "</li>")) ++
        str "</ul>\n    </div>\n</body>\n</html>\n")
      (str "\n" ++ fallbackReadme b c [] 1)
    rw [hrr]
    simp only [Option.getD_some]
    have hsuffY : List.IsSuffix (str "\n## License\nMIT License\n")
        (str "\n" ++ fallbackReadme b c [] 1) :=
      htail2.trans (List.suffix_append _ _)
    have hsuffS : List.IsSuffix (str "\n## License\nMIT License\n")
        ((fallbackHtmlPre ++ b ++
          str "</p>\n        <h2>Checks to Implement</h2>\n        <ul>" ++
          joinSep [] (c.map (fun ch => str "<li>" ++ ch ++ str "</li>")) ++
          str "</ul>\n    </div>\n</body>\n</html>\n") ++ readmeMarker ++
          (str "\n" ++ fallbackReadme b c [] 1)) :=
      hsuffY.trans (List.suffix_append _ _)
    have hrrsuff := split1_snd_suffix readmeMarker _ rr hrr
    exact stripCodeBlock_keep_suffix rr
      (suffix_of_suffix_le hrrsuff hsuffS (le_trans hsuffY.length_le hlenrr))

/-- C2 (amended): `CodeGenerator.generate` is total and its result always
carries the markup, readme and attachments entries; when both providers
fail (raise), the fallback guarantees a non-empty markup and readme for
every brief and checks list; but when a provider returns text,
non-emptiness is not guaranteed — an empty provider text yields an empty
markup, and a text consisting only of the split marker yields an empty
markup and an empty readme. -/
theorem c2_generation_fallback (brief : Str) (checks : List Str)
    (atts : List AttDec) (r : Nat) (pr ph : Option Str) (gA : Bool)
    (gem groq : Option Str) :
    (generate groq gA gem brief checks atts r pr ph).attachments = atts ∧
    (gA = false ∨ gem = none →
      (generate none gA gem brief checks atts r pr ph).indexHtml ≠ [] ∧
      (generate none gA gem brief checks atts r pr ph).readme ≠ []) := by
  constructor
  · rfl
  · intro hg
    have hnone : (if ((Option.isNone (none : Option Str)) && gA) = true then gem
        else none) = (none : Option Str) := by
      rcases hg with h | h
      · simp [h]
      · cases gA <;> simp [h]
    constructor
    · simp only [generate, hnone]
      exact (parse_fallback_ne brief checks atts r).1
    · simp only [generate, hnone]
      exact (parse_fallback_ne brief checks atts r).2

theorem c2_generation_fallback_counterexample :
    (generate (some []) false none (str "b") [] [] 1 none none).indexHtml = [] ∧
    (generate (some readmeMarker) false none (str "b") [] [] 1 none
      none).indexHtml = [] ∧
    (generate (some readmeMarker) false none (str "b") [] [] 1 none
      none).readme = [] := by
  decide

theorem c2_generation_fallback_witness :
    (generate none false none (str "a brief") [str "check1"] [] 1 none
      none).indexHtml ≠ [] ∧
    (generate none false none (str "a brief") [str "check1"] [] 1 none
      none).readme ≠ [] :=
  (c2_generation_fallback (str "a brief") [str "check1"] [] 1 none none
    false none none).2 (Or.inl rfl)

end TdsP1
